import Mathlib

/-!
Verification development for the `in-keys` terminal input library.

The model is a shallow embedding of `src/keys.rs`, `src/streams/unix.rs` and
`src/streams/mod.rs`.  Terminal input is modelled by a `Stdin` state holding
the bytes currently pending on the descriptor plus an end-of-stream flag; the
readiness poll with a zero wait is ready exactly when a byte is pending or the
stream has reached end of stream.  The outcome of a poll with a nonzero wait
is not determined by this state (data may arrive while waiting), so the
functions that perform such a poll take its boolean outcome as an argument.
Every operation additionally returns the list of syscall-level events it
performed (polls with their timeout, reads, terminal-mode changes), which the
theorems use to speak about waits issued, bytes consumed and the number of
mode restorations.
-/

set_option maxHeartbeats 1000000

namespace InKeys

/-- Key events, mirroring `enum Key` in `src/keys.rs`.  `Char` carries the
Unicode code point as a natural number. -/
inductive Key where
  | Unknown | ArrowLeft | ArrowRight | ArrowUp | ArrowDown
  | Enter | Escape | Backspace | Home | End | Tab | BackTab
  | Alt | Del | Shift | Insert | PageUp | PageDown
  | Char (c : Nat)
deriving DecidableEq

/-- The two `io::ErrorKind` values produced by `read_bytes` in
`src/streams/unix.rs`: `UnexpectedEof` for a zero-byte read and `Interrupted`
for the 0x03 interrupt sentinel. -/
inductive IoErr where
  | unexpectedEof
  | interrupted
deriving DecidableEq

/-- A Rust `IoResult`: either a value or an I/O error. -/
inductive IoRes (α : Type) where
  | ok (v : α)
  | err (e : IoErr)
deriving DecidableEq

/-- Syscall-level events recorded by the model: a readiness poll with its
timeout argument, a read of `n` bytes, and the terminal-mode set/reset calls. -/
inductive Ev where
  | pollEv (timeout : Int)
  | readEv (n : Nat)
  | setCfgEv
  | resetCfgEv
deriving DecidableEq

/-- The state of the standard input stream: the bytes currently available for
reading, and whether the stream has hit end of stream (a ready descriptor
whose `read` returns zero bytes). -/
structure Stdin where
  pending : List Nat
  eof : Bool
deriving DecidableEq

/-- Outcome of `poll_input` with a zero wait (`src/streams/unix.rs`,
`poll_input`): the descriptor is readable now exactly when a byte is pending
or end of stream has been reached. -/
def pollReady (s : Stdin) : Bool := !s.pending.isEmpty || s.eof

/-- `read_bytes::<N>(lock, timeout)` from `src/streams/unix.rs`.  `ready` is
the outcome of the initial `poll_input(lock, timeout)` call; for a zero
timeout the caller passes `pollReady s`.  If the poll is not ready the result
is `Ok(None)`.  Otherwise `libc::read` fills a zero-initialised buffer of
length `N` with the `min N (pending.length)` available bytes; a zero-byte read
is `UnexpectedEof`, a buffer whose first byte is 0x03 is `Interrupted`, and
otherwise the (possibly zero-padded) buffer is returned. -/
def readBytes (N : Nat) (t : Int) (ready : Bool) (s : Stdin) :
    IoRes (Option (List Nat)) × Stdin × List Ev :=
  if !ready then (.ok none, s, [.pollEv t])
  else if N = 0 then (.ok (some []), s, [.pollEv t])
  else if s.pending.isEmpty then (.err .unexpectedEof, s, [.pollEv t, .readEv N])
  else
    let bs := s.pending.take N
    let buffer := bs ++ List.replicate (N - bs.length) 0
    if buffer.headD 0 = 3 then
      (.err .interrupted, ⟨s.pending.drop N, s.eof⟩, [.pollEv t, .readEv N])
    else
      (.ok (some buffer), ⟨s.pending.drop N, s.eof⟩, [.pollEv t, .readEv N])

/-- `read_bytes` with a zero timeout: the poll outcome is determined by the
stream state. -/
def readBytes0 (N : Nat) (s : Stdin) : IoRes (Option (List Nat)) × Stdin × List Ev :=
  readBytes N 0 (pollReady s) s

/-- Decode the first UTF-8 scalar value of a byte list, returning the code
point and the remaining bytes, with the same validation as Rust
`str::from_utf8` (continuation ranges, overlong forms, surrogates and the
0x10FFFF bound all rejected). -/
def utf8DecodeFirst : List Nat → Option (Nat × List Nat)
  | [] => none
  | b :: rest =>
    if b < 128 then some (b, rest)
    else if 194 ≤ b ∧ b ≤ 223 then
      match rest with
      | b2 :: r2 =>
        if 128 ≤ b2 ∧ b2 ≤ 191 then some ((b - 192) * 64 + (b2 - 128), r2) else none
      | [] => none
    else if 224 ≤ b ∧ b ≤ 239 then
      match rest with
      | b2 :: b3 :: r3 =>
        if (if b = 224 then 160 else 128) ≤ b2 ∧ b2 ≤ (if b = 237 then 159 else 191)
            ∧ 128 ≤ b3 ∧ b3 ≤ 191 then
          some ((b - 224) * 4096 + (b2 - 128) * 64 + (b3 - 128), r3)
        else none
      | _ => none
    else if 240 ≤ b ∧ b ≤ 244 then
      match rest with
      | b2 :: b3 :: b4 :: r4 =>
        if (if b = 240 then 144 else 128) ≤ b2 ∧ b2 ≤ (if b = 244 then 143 else 191)
            ∧ 128 ≤ b3 ∧ b3 ≤ 191 ∧ 128 ≤ b4 ∧ b4 ≤ 191 then
          some ((b - 240) * 262144 + (b2 - 128) * 4096 + (b3 - 128) * 64 + (b4 - 128), r4)
        else none
      | _ => none
    else none

/-- Whole-list UTF-8 validity, with a fuel argument bounded by the list length
(each decoded scalar consumes at least one byte). -/
def utf8ValidFuel : Nat → List Nat → Bool
  | _, [] => true
  | 0, _ :: _ => false
  | fuel + 1, b :: rest =>
    match utf8DecodeFirst (b :: rest) with
    | some (_, r) => utf8ValidFuel fuel r
    | none => false

/-- Rust `str::from_utf8(value).is_ok()`: the whole byte list is valid UTF-8. -/
def utf8Valid (l : List Nat) : Bool := utf8ValidFuel l.length l

/-- `impl From<&[u8]> for Key` in `src/keys.rs`: validate the whole slice as
UTF-8, take its first scalar, and fall back to `Key::Unknown` when the slice
is invalid or empty. -/
def keyFrom (bs : List Nat) : Key :=
  if utf8Valid bs then
    match utf8DecodeFirst bs with
    | some (c, _) => Key.Char c
    | none => Key.Unknown
  else Key.Unknown

/-- Prepend already-recorded events to the event list of a result triple. -/
def withLog (l : List Ev) (r : IoRes (Option Key) × Stdin × List Ev) :
    IoRes (Option Key) × Stdin × List Ev :=
  (r.1, r.2.1, l ++ r.2.2)

/-- The trailing-tilde check of `process_key` (`src/streams/unix.rs`): after a
CSI parameter digit, read one more byte with zero wait; `~` completes the key,
anything else (including no byte ready) decodes to `Key::Unknown`, and read
errors propagate. -/
def tildeCheck (k : Key) (s : Stdin) : IoRes (Option Key) × Stdin × List Ev :=
  match readBytes0 1 s with
  | (.err e, s1, l1) => (.err e, s1, l1)
  | (.ok ob, s1, l1) =>
    if ob = some [126] then (.ok (some k), s1, l1)
    else (.ok (some .Unknown), s1, l1)

/-- The escape-sequence dispatch of `process_key`: the `match` on the two
lookahead bytes, written as the equivalent chain of equality tests in source
order — the first seven arms return their key directly, the eight digit arms
go through the trailing-tilde check, and everything else (including a
too-short zero-padded buffer) is `Key::Unknown`. -/
def escDispatch (ob : Option (List Nat)) (s2 : Stdin) (l : List Ev) :
    IoRes (Option Key) × Stdin × List Ev :=
  if ob = some [91, 65] then (.ok (some .ArrowUp), s2, l)
  else if ob = some [91, 66] then (.ok (some .ArrowDown), s2, l)
  else if ob = some [91, 67] then (.ok (some .ArrowRight), s2, l)
  else if ob = some [91, 68] then (.ok (some .ArrowLeft), s2, l)
  else if ob = some [91, 72] then (.ok (some .Home), s2, l)
  else if ob = some [91, 70] then (.ok (some .End), s2, l)
  else if ob = some [91, 90] then (.ok (some .BackTab), s2, l)
  else if ob = some [91, 49] then withLog l (tildeCheck .Home s2)
  else if ob = some [91, 50] then withLog l (tildeCheck .Insert s2)
  else if ob = some [91, 51] then withLog l (tildeCheck .Del s2)
  else if ob = some [91, 52] then withLog l (tildeCheck .End s2)
  else if ob = some [91, 53] then withLog l (tildeCheck .PageUp s2)
  else if ob = some [91, 54] then withLog l (tildeCheck .PageDown s2)
  else if ob = some [91, 55] then withLog l (tildeCheck .Home s2)
  else if ob = some [91, 56] then withLog l (tildeCheck .End s2)
  else (.ok (some .Unknown), s2, l)

/-- `process_key(lock, timeout)` from `src/streams/unix.rs`.  `ready1` is the
outcome of the initial `poll_input(lock, timeout)` inside the first
`read_bytes::<1>`; every later poll uses a zero wait and is determined by the
stream state.  Rust `match` arms over byte literals are rendered as chains of
equality tests in arm order; the `Some([b'\x1b'])` arms come first, then the
UTF-8 header guards, then the control bytes, then the `Char` fallback. -/
def processKey (t : Int) (ready1 : Bool) (s : Stdin) :
    IoRes (Option Key) × Stdin × List Ev :=
  match readBytes 1 t ready1 s with
  | (.err e, s1, l1) => (.err e, s1, l1)
  | (.ok none, s1, l1) => (.ok none, s1, l1)
  | (.ok (some buf), s1, l1) =>
    match buf with
    | [byte] =>
      if byte = 27 then
        if pollReady s1 then
          let l1 := l1 ++ [.pollEv 0]
          match readBytes0 2 s1 with
          | (.err e, s2, l2) => (.err e, s2, l1 ++ l2)
          | (.ok ob, s2, l2) => escDispatch ob s2 (l1 ++ l2)
        else (.ok (some .Escape), s1, l1 ++ [.pollEv 0])
      else if byte &&& 224 = 192 then
        match readBytes0 1 s1 with
        | (.err e, s2, l2) => (.err e, s2, l1 ++ l2)
        | (.ok (some [second]), s2, l2) =>
          (.ok (some (keyFrom [byte, second])), s2, l1 ++ l2)
        | (.ok _, s2, l2) => (.ok (some .Unknown), s2, l1 ++ l2)
      else if byte &&& 240 = 224 then
        match readBytes0 2 s1 with
        | (.err e, s2, l2) => (.err e, s2, l1 ++ l2)
        | (.ok (some [second, third]), s2, l2) =>
          (.ok (some (keyFrom [byte, second, third])), s2, l1 ++ l2)
        | (.ok _, s2, l2) => (.ok (some .Unknown), s2, l1 ++ l2)
      else if byte &&& 248 = 240 then
        match readBytes0 3 s1 with
        | (.err e, s2, l2) => (.err e, s2, l1 ++ l2)
        | (.ok (some [second, third, fourth]), s2, l2) =>
          (.ok (some (keyFrom [byte, second, third, fourth])), s2, l1 ++ l2)
        | (.ok _, s2, l2) => (.ok (some .Unknown), s2, l1 ++ l2)
      else if byte = 10 ∨ byte = 13 then (.ok (some .Enter), s1, l1)
      else if byte = 127 then (.ok (some .Backspace), s1, l1)
      else if byte = 9 then (.ok (some .Tab), s1, l1)
      else if byte = 1 then (.ok (some .Home), s1, l1)
      else if byte = 5 then (.ok (some .End), s1, l1)
      else if byte = 8 then (.ok (some .Backspace), s1, l1)
      else (.ok (some (.Char byte)), s1, l1)
    | _ => (.ok (some .Unknown), s1, l1)

/-- Split a byte list at the first newline (0x0A), inclusively: the semantics
of `BufRead::read_line` on a ready canonical-mode terminal. -/
def splitLine : List Nat → List Nat × List Nat
  | [] => ([], [])
  | b :: rest =>
    if b = 10 then ([10], rest)
    else
      let p := splitLine rest
      (b :: p.1, p.2)

/-- `read_string(lock, timeout)` from `src/streams/unix.rs`: if the poll
(whose outcome is `ready`) reports input, read one line and return it,
otherwise return `Ok(None)`. -/
def readString (t : Int) (ready : Bool) (s : Stdin) :
    IoRes (Option (List Nat)) × Stdin × List Ev :=
  if ready then
    let p := splitLine s.pending
    (.ok (some p.1), ⟨p.2, s.eof⟩, [.pollEv t])
  else (.ok none, s, [.pollEv t])

/-- The terminal-mode flags of `src/streams/unix.rs` (`Flag` as matched by
`Config::set` and used by `src/streams/mod.rs`). -/
inductive Flag where
  | Canonical
  | Echo
  | NotCanonical
  | NotEcho
deriving DecidableEq

/-- A terminal-mode snapshot: the `ICANON` and `ECHO` bits of the
line-discipline flags, the only bits the library mutates. -/
structure Mode where
  icanon : Bool
  echo : Bool
deriving DecidableEq

/-- One flag application, mirroring the `match flag` in `Config::set`
(`src/streams/unix.rs`): `Canonical`/`NotCanonical` set/clear `ICANON`,
`Echo`/`NotEcho` set/clear `ECHO`. -/
def applyFlag (m : Mode) : Flag → Mode
  | .Canonical => { m with icanon := true }
  | .Echo => { m with echo := true }
  | .NotCanonical => { m with icanon := false }
  | .NotEcho => { m with echo := false }

/-- Apply a flag list left to right, as the `for flag in flags` loop does. -/
def applyFlags (flags : List Flag) (m : Mode) : Mode := flags.foldl applyFlag m

/-- The world a read discipline acts on: the current terminal mode and the
input stream. -/
structure World where
  mode : Mode
  stdin : Stdin
deriving DecidableEq

/-- Modelled from the spec: `set_config`, imported by `src/streams/mod.rs`
from `streams/unix.rs` but absent from the sources given (unix.rs instead
holds an RAII `Config` of an earlier revision).  Per spec section 4.4, the
acquire operation captures the current mode snapshot, applies the requested
flags, and with `flush` set discards unread buffered input (`TCSAFLUSH`); it
returns the captured snapshot.  The snapshot is plain data: `mod.rs` stores it
in an `Option` across future polls and passes it by value to `reset_config`. -/
def setConfig (flush : Bool) (flags : List Flag) (w : World) : Mode × World × List Ev :=
  (w.mode,
   ⟨applyFlags flags w.mode, if flush then ⟨[], w.stdin.eof⟩ else w.stdin⟩,
   [.setCfgEv])

/-- Modelled from the spec: `reset_config`, the release operation of spec
section 4.4 — restore the captured snapshot. -/
def resetConfig (original : Mode) (w : World) : World × List Ev :=
  (⟨original, w.stdin⟩, [.resetCfgEv])

/-- Number of mode restorations recorded in an event list. -/
def resetCount (l : List Ev) : Nat := l.countP (fun e => decide (e = .resetCfgEv))

/-- Outcome of a public blocking read: a value, a propagated I/O error, or a
panic of the `Option::unwrap` in `src/streams/mod.rs`. -/
inductive BOut (α : Type) where
  | ok (v : α)
  | err (e : IoErr)
  | panicked
deriving DecidableEq

/-- The shared shape of `StdinLock::read_key`, `read_string` and
`read_string_hidden` (`src/streams/mod.rs` lines 133-159): set the mode, run
the underlying read with an infinite wait (`ready1` is the outcome of that
blocking poll), unwrap its `Option`, and reset the mode only after a
successful read — the `?` operators return before `reset_config` runs. -/
def blockingRead (f : Int → Bool → Stdin → IoRes (Option α) × Stdin × List Ev)
    (flush : Bool) (flags : List Flag) (ready1 : Bool) (w : World) :
    BOut α × World × List Ev :=
  let p := setConfig flush flags w
  match f (-1) ready1 p.2.1.stdin with
  | (.err e, s1, l2) => (.err e, ⟨p.2.1.mode, s1⟩, p.2.2 ++ l2)
  | (.ok none, s1, l2) => (.panicked, ⟨p.2.1.mode, s1⟩, p.2.2 ++ l2)
  | (.ok (some v), s1, l2) =>
    let q := resetConfig p.1 ⟨p.2.1.mode, s1⟩
    (.ok v, q.1, p.2.2 ++ l2 ++ q.2)

/-- `StdinLock::read_key` (blocking). -/
def read_key_blocking : Bool → World → BOut Key × World × List Ev :=
  blockingRead processKey false [.NotCanonical, .NotEcho]

/-- `StdinLock::read_string` (blocking). -/
def read_string_blocking : Bool → World → BOut (List Nat) × World × List Ev :=
  blockingRead readString true [.Canonical, .Echo]

/-- `StdinLock::read_string_hidden` (blocking). -/
def read_string_hidden_blocking : Bool → World → BOut (List Nat) × World × List Ev :=
  blockingRead readString true [.Canonical, .NotEcho]

/-- `i32::MAX`, the bound of the underlying poll wait. -/
def i32Max : Nat := 2147483647

/-- The numeric value of `i32Max`.  `i32Max` is kept irreducible below so
that unification never unfolds `budget - i32Max` into a unary `Nat.sub`
cascade; this equation is the one reduction the proofs use. -/
theorem i32Max_eq : i32Max = 2147483647 := rfl

attribute [irreducible] i32Max

/-- The timeout-decomposition loop of the `read_or_timeout!` macro
(`src/streams/mod.rs` lines 108-123), generic over the underlying read `f`
and its state (exactly as the macro is generic in `$timeout_read`): while the
remaining budget exceeds `i32::MAX`, poll with `i32::MAX` and on no data
subtract it from the budget; otherwise issue a final poll with the exact
remainder.  Errors propagate; a value or the final `None` breaks the loop.
The `fuel` argument only witnesses termination: every iteration lowers the
budget by `i32Max ≥ 1`, so any `fuel ≥ budget` gives the loop's behaviour,
and `read_or_timeout_loop` below starts it with `fuel = budget` (the zero
fuel, zero budget arm coincides with the final poll). -/
def rotLoopAux (f : Int → σ → IoRes (Option α) × σ × List Ev) :
    Nat → Nat → σ → IoRes (Option α) × σ × List Ev
  | 0, budget, st => f (budget : Nat) st
  | fuel + 1, budget, st =>
    if i32Max < budget then
      match f (i32Max : Nat) st with
      | (.err e, st1, l) => (.err e, st1, l)
      | (.ok (some v), st1, l) => (.ok (some v), st1, l)
      | (.ok none, st1, l) =>
        let p := rotLoopAux f fuel (budget - i32Max) st1
        (p.1, p.2.1, l ++ p.2.2)
    else f (budget : Nat) st

/-- The decomposition loop at its intended entry point. -/
def read_or_timeout_loop (f : Int → σ → IoRes (Option α) × σ × List Ev)
    (budget : Nat) (st : σ) : IoRes (Option α) × σ × List Ev :=
  rotLoopAux f budget budget st

/-- The full body generated by `read_or_timeout!`: set the mode, run the
decomposition loop, and reset the mode after the loop concludes with a value
or `None` — but not when an error propagates through `?`. -/
def read_or_timeout (f : Int → Stdin → IoRes (Option α) × Stdin × List Ev)
    (flush : Bool) (flags : List Flag) (budget : Nat) (w : World) :
    IoRes (Option α) × World × List Ev :=
  let p := setConfig flush flags w
  match read_or_timeout_loop f budget p.2.1.stdin with
  | (.err e, s1, l2) => (.err e, ⟨p.2.1.mode, s1⟩, p.2.2 ++ l2)
  | (.ok v, s1, l2) =>
    let q := resetConfig p.1 ⟨p.2.1.mode, s1⟩
    (.ok v, q.1, p.2.2 ++ l2 ++ q.2)

/-- In the static-input model the poll outcome for any wait equals the
zero-wait readiness: data that is not yet pending never arrives. -/
def processKeyStatic (t : Int) (s : Stdin) : IoRes (Option Key) × Stdin × List Ev :=
  processKey t (pollReady s) s

/-- `read_string` under the static-input model. -/
def readStringStatic (t : Int) (s : Stdin) : IoRes (Option (List Nat)) × Stdin × List Ev :=
  readString t (pollReady s) s

/-- `StdinLock::read_key_or_timeout`. -/
def read_key_or_timeout : Nat → World → IoRes (Option Key) × World × List Ev :=
  read_or_timeout processKeyStatic false [.NotCanonical, .NotEcho]

/-- `StdinLock::read_string_or_timeout`. -/
def read_string_or_timeout : Nat → World → IoRes (Option (List Nat)) × World × List Ev :=
  read_or_timeout readStringStatic true [.Canonical, .Echo]

/-- `StdinLock::read_string_hidden_or_timeout`. -/
def read_string_hidden_or_timeout : Nat → World → IoRes (Option (List Nat)) × World × List Ev :=
  read_or_timeout readStringStatic true [.Canonical, .NotEcho]

/-- The persistent state of a `ReadFuture` (`read_future!` macro,
`src/streams/mod.rs`): the `original: Option<IoResult<Original>>` field;
`none` after the future completed (the `take()` left nothing behind). -/
structure FutState where
  original : Option (IoRes Mode)
deriving DecidableEq

/-- Result of one `Future::poll` step: ready with a result, pending, or the
`unreachable!()` panic of polling a completed future. -/
inductive StepRes (α : Type) where
  | ready (r : IoRes α)
  | pending
  | panicked
deriving DecidableEq

/-- `ReadFuture::poll` from the `read_future!` macro: take the stored
snapshot; run the underlying read with a zero wait; on a value reset the mode
and return `Ready(Ok)`; on `None` wake, put the snapshot back and return
`Pending`; on an error return `Ready(Err)` through `?` without resetting. -/
def future_poll (f : Stdin → IoRes (Option α) × Stdin × List Ev)
    (fs : FutState) (w : World) : StepRes α × FutState × World × List Ev :=
  match fs.original with
  | none => (.panicked, ⟨none⟩, w, [])
  | some (.err e) => (.ready (.err e), ⟨none⟩, w, [])
  | some (.ok original) =>
    match f w.stdin with
    | (.err e, s1, l) => (.ready (.err e), ⟨none⟩, ⟨w.mode, s1⟩, l)
    | (.ok (some out), s1, l) =>
      let q := resetConfig original ⟨w.mode, s1⟩
      (.ready (.ok out), ⟨none⟩, q.1, l ++ q.2)
    | (.ok none, s1, l) => (.pending, ⟨some (.ok original)⟩, ⟨w.mode, s1⟩, l)

/-- The body of each generated `read_*_future` function: set the mode once
and store the snapshot in the future. -/
def future_new (flush : Bool) (flags : List Flag) (w : World) :
    FutState × World × List Ev :=
  let p := setConfig flush flags w
  (⟨some (.ok p.1)⟩, p.2.1, p.2.2)

/-- One poll step of `read_key_future`. -/
def read_key_future_step : FutState → World → StepRes Key × FutState × World × List Ev :=
  future_poll (fun s => processKey 0 (pollReady s) s)

/-- One poll step of `read_string_future`. -/
def read_string_future_step :
    FutState → World → StepRes (List Nat) × FutState × World × List Ev :=
  future_poll (fun s => readString 0 (pollReady s) s)

/-- Iterate `read_key_future_step` `n` times, threading future state and
world. -/
def iter_key_step : Nat → FutState × World → FutState × World
  | 0, p => p
  | n + 1, p =>
    let q := read_key_future_step p.1 p.2
    iter_key_step n (q.2.1, q.2.2.1)

/-- An environment oracle for the timeout loop: each call of the underlying
read consumes one boolean saying whether data was ready within that wait; an
exhausted oracle means data never arrives. -/
def oracle_read : Int → List Bool → IoRes (Option Unit) × List Bool × List Ev
  | t, [] => (.ok none, [], [.pollEv t])
  | t, b :: rest => (if b then .ok (some ()) else .ok none, rest, [.pollEv t])

/-- The poll waits recorded in an event list, in order. -/
def poll_waits (l : List Ev) : List Int :=
  l.filterMap (fun e => match e with | .pollEv t => some t | _ => none)

/-- `rotLoopAux` at zero fuel (reached only at zero budget): the final
poll. -/
theorem rotLoopAux_zero (f : Int → σ → IoRes (Option α) × σ × List Ev)
    (budget : Nat) (st : σ) : rotLoopAux f 0 budget st = f (budget : Nat) st := rfl

/-- `rotLoopAux` at positive fuel: one source-shaped loop iteration. -/
theorem rotLoopAux_succ (f : Int → σ → IoRes (Option α) × σ × List Ev)
    (fuel budget : Nat) (st : σ) :
    rotLoopAux f (fuel + 1) budget st =
      if i32Max < budget then
        match f ((i32Max : Nat) : Int) st with
        | (.err e, st1, l) => (.err e, st1, l)
        | (.ok (some v), st1, l) => (.ok (some v), st1, l)
        | (.ok none, st1, l) =>
          let p := rotLoopAux f fuel (budget - i32Max) st1
          (p.1, p.2.1, l ++ p.2.2)
      else f (budget : Nat) st := rfl

/-- The fuel of `rotLoopAux` is irrelevant as long as it dominates the
budget. -/
theorem rotLoopAux_congr (f : Int → σ → IoRes (Option α) × σ × List Ev) :
    ∀ (fuel fuel' budget : Nat) (st : σ), budget ≤ fuel → budget ≤ fuel' →
      rotLoopAux f fuel budget st = rotLoopAux f fuel' budget st := by
  intro fuel
  induction fuel with
  | zero =>
    intro fuel' budget st h h'
    have hb : budget = 0 := Nat.le_zero.mp h
    subst hb
    cases fuel' with
    | zero => rfl
    | succ m =>
      rw [rotLoopAux_zero, rotLoopAux_succ, if_neg (by rw [i32Max_eq]; omega)]
  | succ n ih =>
    intro fuel' budget st h h'
    by_cases hb : i32Max < budget
    · have hM : 1 ≤ i32Max := by rw [i32Max_eq]; omega
      cases fuel' with
      | zero => omega
      | succ m =>
        rw [rotLoopAux_succ, rotLoopAux_succ, if_pos hb, if_pos hb]
        rcases hf : f ((i32Max : Nat) : Int) st with ⟨r, st1, l⟩
        rcases r with v | e
        · rcases v with _ | v
          · have := ih m (budget - i32Max) st1 (by omega) (by omega)
            simp [this]
          · rfl
        · rfl
    · cases fuel' with
      | zero =>
        have hb0 : budget = 0 := Nat.le_zero.mp h'
        subst hb0
        rw [rotLoopAux_succ, rotLoopAux_zero, if_neg (by rw [i32Max_eq]; omega)]
      | succ m =>
        rw [rotLoopAux_succ, rotLoopAux_succ, if_neg hb, if_neg hb]

/-- One-step unfolding of the timeout-decomposition loop, in the shape of the
source loop. -/
theorem read_or_timeout_loop_eq (f : Int → σ → IoRes (Option α) × σ × List Ev)
    (budget : Nat) (st : σ) :
    read_or_timeout_loop f budget st =
      if i32Max < budget then
        match f ((i32Max : Nat) : Int) st with
        | (.err e, st1, l) => (.err e, st1, l)
        | (.ok (some v), st1, l) => (.ok (some v), st1, l)
        | (.ok none, st1, l) =>
          let p := read_or_timeout_loop f (budget - i32Max) st1
          (p.1, p.2.1, l ++ p.2.2)
      else f (budget : Nat) st := by
  cases budget with
  | zero =>
    rw [read_or_timeout_loop, rotLoopAux_zero, if_neg (by rw [i32Max_eq]; omega)]
  | succ n =>
    by_cases hb : i32Max < n + 1
    · have hM : 1 ≤ i32Max := by rw [i32Max_eq]; omega
      rw [read_or_timeout_loop, rotLoopAux_succ, if_pos hb, if_pos hb]
      rcases hf : f ((i32Max : Nat) : Int) st with ⟨r, st1, l⟩
      rcases r with v | e
      · rcases v with _ | v
        · have hc := rotLoopAux_congr f n (n + 1 - i32Max) (n + 1 - i32Max) st1
            (by omega) (by omega)
          simp only [read_or_timeout_loop]
          simp [hc]
        · rfl
      · rfl
    · rw [read_or_timeout_loop, rotLoopAux_succ, if_neg hb, if_neg hb]

/-- `read_bytes` with a not-ready poll returns `Ok(None)` and touches
nothing. -/
theorem readBytes_notReady (N : Nat) (t : Int) (s : Stdin) :
    readBytes N t false s = (.ok none, s, [.pollEv t]) := by
  simp [readBytes]

/-- `read_bytes` returns `Ok(None)` only when its poll was not ready. -/
theorem readBytes_ok_none (N : Nat) (t : Int) (r : Bool) (s : Stdin)
    (h : (readBytes N t r s).1 = .ok none) : r = false := by
  cases r
  · rfl
  · exfalso
    revert h
    simp only [readBytes]
    split
    · simp_all
    · split
      · simp
      · split
        · simp
        · split <;> simp

/-- After a ready poll, with at least `N ≥ 1` bytes pending and no leading
sentinel, `read_bytes` returns exactly the first `N` pending bytes. -/
theorem readBytes_full (N : Nat) (t : Int) (s : Stdin)
    (hN : 1 ≤ N) (hlen : N ≤ s.pending.length) (hs : s.pending.head? ≠ some 3) :
    readBytes N t true s =
      (.ok (some (s.pending.take N)), ⟨s.pending.drop N, s.eof⟩,
        [.pollEv t, .readEv N]) := by
  rcases hp : s.pending with _ | ⟨a, as⟩
  · rw [hp] at hlen; simp at hlen; omega
  · have ha : a ≠ 3 := by
      rw [hp] at hs; simp at hs; exact hs
    have hrep : N - (s.pending.take N).length = 0 := by
      simp [List.length_take]; omega
    have hhead : (s.pending.take N).headD 0 = a := by
      rw [hp]
      cases N with
      | zero => omega
      | succ m => simp
    simp only [readBytes, Bool.not_true, Bool.false_eq_true, if_false,
      hrep, List.replicate_zero, List.append_nil]
    rw [if_neg (by omega)]
    rw [if_neg (by rw [hp]; simp)]
    rw [if_neg (by rw [hhead]; exact ha)]
    rw [hp]

/-- After a ready poll with `1 ≤ k < N` bytes pending and no leading
sentinel, `read_bytes` returns the pending bytes zero-padded to length `N`
(the padding is not stream data). -/
theorem readBytes_short (N : Nat) (t : Int) (s : Stdin)
    (hN : 1 ≤ N) (hne : s.pending ≠ []) (hlen : s.pending.length < N)
    (hs : s.pending.head? ≠ some 3) :
    readBytes N t true s =
      (.ok (some (s.pending ++ List.replicate (N - s.pending.length) 0)),
        ⟨[], s.eof⟩, [.pollEv t, .readEv N]) := by
  rcases hp : s.pending with _ | ⟨a, as⟩
  · exact absurd hp hne
  · have ha : a ≠ 3 := by
      rw [hp] at hs; simp at hs; exact hs
    have htake : s.pending.take N = s.pending := List.take_of_length_le (by omega)
    have hdrop : s.pending.drop N = [] := List.drop_eq_nil_of_le (by omega)
    have hhead : (s.pending ++ List.replicate (N - s.pending.length) 0).headD 0 = a := by
      rw [hp]; simp
    simp only [readBytes, Bool.not_true, Bool.false_eq_true, if_false, htake, hdrop]
    rw [if_neg (by omega)]
    rw [if_neg (by rw [hp]; simp)]
    rw [if_neg (by rw [hhead]; exact ha)]
    rw [hp]

/-- After a ready poll, a leading 0x03 byte makes `read_bytes` fail with
`Interrupted` for every `N ≥ 1` (the bytes are consumed by the `libc::read`
before the check). -/
theorem readBytes_sentinel (N : Nat) (t : Int) (s : Stdin)
    (hN : 1 ≤ N) (hs : s.pending.head? = some 3) :
    readBytes N t true s =
      (.err .interrupted, ⟨s.pending.drop N, s.eof⟩, [.pollEv t, .readEv N]) := by
  rcases hp : s.pending with _ | ⟨a, as⟩
  · rw [hp] at hs; simp at hs
  · have ha : a = 3 := by rw [hp] at hs; simp at hs; exact hs
    have hhead : (s.pending.take N ++
        List.replicate (N - (s.pending.take N).length) 0).headD 0 = 3 := by
      rw [hp]
      cases N with
      | zero => omega
      | succ m => simp [ha]
    simp only [readBytes, Bool.not_true, Bool.false_eq_true, if_false]
    rw [if_neg (by omega)]
    rw [if_neg (by rw [hp]; simp)]
    rw [if_pos hhead]
    rw [hp]

/-- After a ready poll with nothing pending (end of stream), `read_bytes`
fails with `UnexpectedEof` for every `N ≥ 1`. -/
theorem readBytes_eof (N : Nat) (t : Int) (s : Stdin)
    (hN : 1 ≤ N) (hp : s.pending = []) :
    readBytes N t true s = (.err .unexpectedEof, s, [.pollEv t, .readEv N]) := by
  simp only [readBytes, Bool.not_true, Bool.false_eq_true, if_false]
  rw [if_neg (by omega)]
  rw [if_pos (by rw [hp]; simp)]

set_option maxRecDepth 100000 in
/-- For bytes, the two-byte UTF-8 header mask test is the range 0xC0-0xDF. -/
theorem mask2_iff : ∀ b : Nat, b < 256 → ((b &&& 224 = 192) ↔ (192 ≤ b ∧ b ≤ 223)) := by
  decide

set_option maxRecDepth 100000 in
/-- For bytes, the three-byte UTF-8 header mask test is the range 0xE0-0xEF. -/
theorem mask3_iff : ∀ b : Nat, b < 256 → ((b &&& 240 = 224) ↔ (224 ≤ b ∧ b ≤ 239)) := by
  decide

set_option maxRecDepth 100000 in
/-- For bytes, the four-byte UTF-8 header mask test is the range 0xF0-0xF7. -/
theorem mask4_iff : ∀ b : Nat, b < 256 → ((b &&& 248 = 240) ↔ (240 ≤ b ∧ b ≤ 247)) := by
  decide

/-- A byte list that is not valid UTF-8 never converts to a `Char`. -/
theorem keyFrom_invalid (bs : List Nat) (h : utf8Valid bs = false) :
    keyFrom bs = .Unknown := by
  simp [keyFrom, h]

/-- The conversion of a well-formed two-byte UTF-8 sequence yields the scalar
it encodes. -/
theorem keyFrom_two_bytes (b1 b2 : Nat) (h1 : 194 ≤ b1) (h1a : b1 ≤ 223)
    (h2 : 128 ≤ b2) (h2a : b2 ≤ 191) :
    keyFrom [b1, b2] = .Char ((b1 - 192) * 64 + (b2 - 128)) := by
  have h128 : ¬(b1 < 128) := by omega
  have hb : 194 ≤ b1 ∧ b1 ≤ 223 := ⟨h1, h1a⟩
  have hc : 128 ≤ b2 ∧ b2 ≤ 191 := ⟨h2, h2a⟩
  simp [keyFrom, utf8Valid, utf8ValidFuel, utf8DecodeFirst, h128, hb, hc]

/-- A three-byte span whose last byte is the zero padding of a short read is
never valid UTF-8, hence converts to `Unknown`. -/
theorem keyFrom_pad3_unknown (b1 b2 : Nat) (hr : 224 ≤ b1 ∧ b1 ≤ 239) :
    keyFrom [b1, b2, 0] = .Unknown := by
  have h128 : ¬(b1 < 128) := by omega
  have h2b : ¬(194 ≤ b1 ∧ b1 ≤ 223) := by omega
  simp [keyFrom, utf8Valid, utf8ValidFuel, utf8DecodeFirst, h128, h2b, hr]

/-- An overlong two-byte form (lead byte 0xC0 or 0xC1) is invalid, hence
`Unknown`. -/
theorem keyFrom_overlong2 (b1 b2 : Nat) (hr : b1 = 192 ∨ b1 = 193) :
    keyFrom [b1, b2] = .Unknown := by
  have h128 : ¬(b1 < 128) := by omega
  have h2b : ¬(194 ≤ b1 ∧ b1 ≤ 223) := by omega
  have h3b : ¬(224 ≤ b1 ∧ b1 ≤ 239) := by omega
  have h4b : ¬(240 ≤ b1 ∧ b1 ≤ 244) := by omega
  simp [keyFrom, utf8Valid, utf8ValidFuel, utf8DecodeFirst, h128, h2b, h3b, h4b]

/-- `process_key` with a not-ready initial poll returns `Ok(None)` without
touching the stream. -/
theorem processKey_notReady (t : Int) (s : Stdin) :
    processKey t false s = (.ok none, s, [.pollEv t]) := by
  simp [processKey, readBytes]

/-- `readString` with a not-ready poll returns `Ok(None)` without touching
the stream. -/
theorem readString_notReady (t : Int) (s : Stdin) :
    readString t false s = (.ok none, s, [.pollEv t]) := by
  simp [readString]

/-- The tilde check never produces `Ok(None)`. -/
theorem tildeCheck_fst_ne_none (k : Key) (s : Stdin) :
    (tildeCheck k s).1 ≠ .ok none := by
  unfold tildeCheck
  rcases h : readBytes0 1 s with ⟨r, s1, l1⟩
  rcases r with v | e
  · simp only []
    split <;> simp
  · simp

/-- The escape dispatch never produces `Ok(None)`. -/
theorem escDispatch_fst_ne_none (ob : Option (List Nat)) (s : Stdin) (l : List Ev) :
    (escDispatch ob s l).1 ≠ .ok none := by
  unfold escDispatch
  by_cases h1 : ob = some [91, 65]
  · rw [if_pos h1]; simp
  rw [if_neg h1]
  by_cases h2 : ob = some [91, 66]
  · rw [if_pos h2]; simp
  rw [if_neg h2]
  by_cases h3 : ob = some [91, 67]
  · rw [if_pos h3]; simp
  rw [if_neg h3]
  by_cases h4 : ob = some [91, 68]
  · rw [if_pos h4]; simp
  rw [if_neg h4]
  by_cases h5 : ob = some [91, 72]
  · rw [if_pos h5]; simp
  rw [if_neg h5]
  by_cases h6 : ob = some [91, 70]
  · rw [if_pos h6]; simp
  rw [if_neg h6]
  by_cases h7 : ob = some [91, 90]
  · rw [if_pos h7]; simp
  rw [if_neg h7]
  by_cases h8 : ob = some [91, 49]
  · rw [if_pos h8]
    simp only [withLog]
    exact tildeCheck_fst_ne_none _ _
  rw [if_neg h8]
  by_cases h9 : ob = some [91, 50]
  · rw [if_pos h9]
    simp only [withLog]
    exact tildeCheck_fst_ne_none _ _
  rw [if_neg h9]
  by_cases h10 : ob = some [91, 51]
  · rw [if_pos h10]
    simp only [withLog]
    exact tildeCheck_fst_ne_none _ _
  rw [if_neg h10]
  by_cases h11 : ob = some [91, 52]
  · rw [if_pos h11]
    simp only [withLog]
    exact tildeCheck_fst_ne_none _ _
  rw [if_neg h11]
  by_cases h12 : ob = some [91, 53]
  · rw [if_pos h12]
    simp only [withLog]
    exact tildeCheck_fst_ne_none _ _
  rw [if_neg h12]
  by_cases h13 : ob = some [91, 54]
  · rw [if_pos h13]
    simp only [withLog]
    exact tildeCheck_fst_ne_none _ _
  rw [if_neg h13]
  by_cases h14 : ob = some [91, 55]
  · rw [if_pos h14]
    simp only [withLog]
    exact tildeCheck_fst_ne_none _ _
  rw [if_neg h14]
  by_cases h15 : ob = some [91, 56]
  · rw [if_pos h15]
    simp only [withLog]
    exact tildeCheck_fst_ne_none _ _
  rw [if_neg h15]
  simp

/-- With a ready initial poll, `process_key` never returns `Ok(None)`: the
inner lookahead misses all map to `Key::Unknown`. -/
theorem processKey_ready_ne_none (t : Int) (s : Stdin) :
    (processKey t true s).1 ≠ .ok none := by
  unfold processKey
  rcases h : readBytes 1 t true s with ⟨r, s1, l1⟩
  rcases r with v | e
  · rcases v with _ | buf
    · have := readBytes_ok_none 1 t true s (by rw [h])
      simp at this
    · rcases buf with _ | ⟨b, bs⟩
      · simp
      · rcases bs with _ | ⟨b2, bs2⟩
        · simp only []
          by_cases h27 : b = 27
          · rw [if_pos h27]
            by_cases hpr : pollReady s1
            · rw [if_pos hpr]
              rcases h2 : readBytes0 2 s1 with ⟨r2, s2, l2⟩
              rcases r2 with v2 | e2
              · simp only []
                exact escDispatch_fst_ne_none _ _ _
              · simp
            · rw [if_neg hpr]; simp
          · rw [if_neg h27]
            by_cases hm2 : b &&& 224 = 192
            · rw [if_pos hm2]
              rcases h2 : readBytes0 1 s1 with ⟨r2, s2, l2⟩
              rcases r2 with v2 | e2
              · rcases v2 with _ | buf2
                · simp
                · rcases buf2 with _ | ⟨c, cs⟩
                  · simp
                  · rcases cs with _ | _ <;> simp
              · simp
            · rw [if_neg hm2]
              by_cases hm3 : b &&& 240 = 224
              · rw [if_pos hm3]
                rcases h2 : readBytes0 2 s1 with ⟨r2, s2, l2⟩
                rcases r2 with v2 | e2
                · rcases v2 with _ | buf2
                  · simp
                  · rcases buf2 with _ | ⟨c, cs⟩
                    · simp
                    · rcases cs with _ | ⟨d, ds⟩
                      · simp
                      · rcases ds with _ | _ <;> simp
                · simp
              · rw [if_neg hm3]
                by_cases hm4 : b &&& 248 = 240
                · rw [if_pos hm4]
                  rcases h2 : readBytes0 3 s1 with ⟨r2, s2, l2⟩
                  rcases r2 with v2 | e2
                  · rcases v2 with _ | buf2
                    · simp
                    · rcases buf2 with _ | ⟨c, cs⟩
                      · simp
                      · rcases cs with _ | ⟨d, ds⟩
                        · simp
                        · rcases ds with _ | ⟨e3, es⟩
                          · simp
                          · rcases es with _ | _ <;> simp
                  · simp
                · rw [if_neg hm4]
                  split_ifs <;> simp
        · simp
  · simp


/-- First component of an explicit triple. -/
theorem triple_fst {A : Type u} {B : Type v} {C : Type w} (a : A) (b : B) (c : C) :
    ((a, b, c) : A × B × C).1 = a := rfl

/-- Middle component of an explicit triple. -/
theorem triple_snd_fst {A : Type u} {B : Type v} {C : Type w} (a : A) (b : B) (c : C) :
    ((a, b, c) : A × B × C).2.1 = b := rfl

/-- Last component of an explicit triple. -/
theorem triple_snd_snd {A : Type u} {B : Type v} {C : Type w} (a : A) (b : B) (c : C) :
    ((a, b, c) : A × B × C).2.2 = c := rfl

/-- Loop step: budget above the bound, underlying read not ready — recurse on
the reduced budget, prepending this iteration's events. -/
theorem rotLoop_step_none (f : Int → σ → IoRes (Option α) × σ × List Ev)
    (budget : Nat) (st st1 : σ) (l : List Ev) (hb : i32Max < budget)
    (hf : f ((i32Max : Nat) : Int) st = (.ok none, st1, l)) :
    read_or_timeout_loop f budget st =
      ((read_or_timeout_loop f (budget - i32Max) st1).1,
        (read_or_timeout_loop f (budget - i32Max) st1).2.1,
        l ++ (read_or_timeout_loop f (budget - i32Max) st1).2.2) := by
  rw [read_or_timeout_loop_eq, if_pos hb, hf]

/-- Loop step: budget above the bound, underlying read errored — the error
breaks out of the loop. -/
theorem rotLoop_step_err (f : Int → σ → IoRes (Option α) × σ × List Ev)
    (budget : Nat) (st st1 : σ) (l : List Ev) (e : IoErr) (hb : i32Max < budget)
    (hf : f ((i32Max : Nat) : Int) st = (.err e, st1, l)) :
    read_or_timeout_loop f budget st = (.err e, st1, l) := by
  rw [read_or_timeout_loop_eq, if_pos hb, hf]

/-- Loop step: budget above the bound, data arrived — the value breaks out of
the loop. -/
theorem rotLoop_step_some (f : Int → σ → IoRes (Option α) × σ × List Ev)
    (budget : Nat) (st st1 : σ) (l : List Ev) (v : α) (hb : i32Max < budget)
    (hf : f ((i32Max : Nat) : Int) st = (.ok (some v), st1, l)) :
    read_or_timeout_loop f budget st = (.ok (some v), st1, l) := by
  rw [read_or_timeout_loop_eq, if_pos hb, hf]

/-- Loop step: budget within the bound — one final poll with the exact
remainder. -/
theorem rotLoop_last (f : Int → σ → IoRes (Option α) × σ × List Ev)
    (budget : Nat) (st : σ) (hb : ¬ i32Max < budget) :
    read_or_timeout_loop f budget st = f (budget : Nat) st := by
  rw [read_or_timeout_loop_eq, if_neg hb]

/-- The recursion step of `rotLoop_step_none`, componentwise. -/
theorem rotLoop_step_none_parts (f : Int → σ → IoRes (Option α) × σ × List Ev)
    (budget : Nat) (st st1 : σ) (l : List Ev) (hb : i32Max < budget)
    (hf : f ((i32Max : Nat) : Int) st = (.ok none, st1, l)) :
    (read_or_timeout_loop f budget st).1 =
      (read_or_timeout_loop f (budget - i32Max) st1).1 ∧
    (read_or_timeout_loop f budget st).2.1 =
      (read_or_timeout_loop f (budget - i32Max) st1).2.1 ∧
    (read_or_timeout_loop f budget st).2.2 =
      l ++ (read_or_timeout_loop f (budget - i32Max) st1).2.2 :=
  ⟨(congrArg Prod.fst (rotLoop_step_none f budget st st1 l hb hf)).trans
    (triple_fst _ _ _),
   (congrArg (fun x => x.2.1) (rotLoop_step_none f budget st st1 l hb hf)).trans
    (triple_snd_fst _ _ _),
   (congrArg (fun x => x.2.2) (rotLoop_step_none f budget st st1 l hb hf)).trans
    (triple_snd_snd _ _ _)⟩

/-- If the underlying read always reports nothing on this state, the loop
elapses the whole budget and returns `Ok(None)` with the state untouched. -/
theorem rotLoop_static_none (f : Int → Stdin → IoRes (Option α) × Stdin × List Ev)
    (s : Stdin) (hf : ∀ t : Int, f t s = (.ok none, s, [.pollEv t])) :
    ∀ budget : Nat, (read_or_timeout_loop f budget s).1 = .ok none ∧
      (read_or_timeout_loop f budget s).2.1 = s := by
  intro budget
  induction budget using Nat.strong_induction_on with
  | _ budget ih =>
    by_cases hb : i32Max < budget
    · obtain ⟨e1, e2, e3⟩ := rotLoop_step_none_parts f budget s s
        [.pollEv ((i32Max : Nat) : Int)] hb (hf ((i32Max : Nat) : Int))
      rw [e1, e2]
      have hlt : budget - i32Max < budget := by
        rw [i32Max_eq] at hb ⊢
        omega
      exact ih (budget - i32Max) hlt
    · rw [rotLoop_last f budget s hb, hf]
      exact ⟨rfl, rfl⟩

/-- Appending event lists adds their restoration counts. -/
theorem resetCount_append (a b : List Ev) :
    resetCount (a ++ b) = resetCount a + resetCount b := by
  simp [resetCount, List.countP_append]

/-- A `read_bytes` call performs no mode restoration. -/
theorem readBytes_resetCount (N : Nat) (t : Int) (r : Bool) (s : Stdin) :
    resetCount (readBytes N t r s).2.2 = 0 := by
  unfold readBytes
  split_ifs <;> simp [resetCount]
  split <;> simp

/-- The tilde check performs no mode restoration. -/
theorem tildeCheck_resetCount (k : Key) (s : Stdin) :
    resetCount (tildeCheck k s).2.2 = 0 := by
  unfold tildeCheck
  rcases h : readBytes0 1 s with ⟨r, s1, l1⟩
  have hl : resetCount l1 = 0 := by
    have hx := readBytes_resetCount 1 0 (pollReady s) s
    rw [show (readBytes 1 0 (pollReady s) s) = readBytes0 1 s from rfl, h] at hx
    exact hx
  rcases r with v | e
  · simp only []
    split_ifs <;> simpa using hl
  · simpa using hl

/-- Every escape dispatch outcome is either a direct key result or the tilde
check, with the incoming log passed through unchanged. -/
theorem escDispatch_cases (ob : Option (List Nat)) (s : Stdin) (l : List Ev) :
    (∃ k, escDispatch ob s l = (.ok (some k), s, l)) ∨
    (∃ k, escDispatch ob s l = withLog l (tildeCheck k s)) := by
  unfold escDispatch
  by_cases h1 : ob = some [91, 65]
  · rw [if_pos h1]
    exact Or.inl ⟨_, rfl⟩
  rw [if_neg h1]
  by_cases h2 : ob = some [91, 66]
  · rw [if_pos h2]
    exact Or.inl ⟨_, rfl⟩
  rw [if_neg h2]
  by_cases h3 : ob = some [91, 67]
  · rw [if_pos h3]
    exact Or.inl ⟨_, rfl⟩
  rw [if_neg h3]
  by_cases h4 : ob = some [91, 68]
  · rw [if_pos h4]
    exact Or.inl ⟨_, rfl⟩
  rw [if_neg h4]
  by_cases h5 : ob = some [91, 72]
  · rw [if_pos h5]
    exact Or.inl ⟨_, rfl⟩
  rw [if_neg h5]
  by_cases h6 : ob = some [91, 70]
  · rw [if_pos h6]
    exact Or.inl ⟨_, rfl⟩
  rw [if_neg h6]
  by_cases h7 : ob = some [91, 90]
  · rw [if_pos h7]
    exact Or.inl ⟨_, rfl⟩
  rw [if_neg h7]
  by_cases h8 : ob = some [91, 49]
  · rw [if_pos h8]
    exact Or.inr ⟨_, rfl⟩
  rw [if_neg h8]
  by_cases h9 : ob = some [91, 50]
  · rw [if_pos h9]
    exact Or.inr ⟨_, rfl⟩
  rw [if_neg h9]
  by_cases h10 : ob = some [91, 51]
  · rw [if_pos h10]
    exact Or.inr ⟨_, rfl⟩
  rw [if_neg h10]
  by_cases h11 : ob = some [91, 52]
  · rw [if_pos h11]
    exact Or.inr ⟨_, rfl⟩
  rw [if_neg h11]
  by_cases h12 : ob = some [91, 53]
  · rw [if_pos h12]
    exact Or.inr ⟨_, rfl⟩
  rw [if_neg h12]
  by_cases h13 : ob = some [91, 54]
  · rw [if_pos h13]
    exact Or.inr ⟨_, rfl⟩
  rw [if_neg h13]
  by_cases h14 : ob = some [91, 55]
  · rw [if_pos h14]
    exact Or.inr ⟨_, rfl⟩
  rw [if_neg h14]
  by_cases h15 : ob = some [91, 56]
  · rw [if_pos h15]
    exact Or.inr ⟨_, rfl⟩
  rw [if_neg h15]
  exact Or.inl ⟨_, rfl⟩
/-- The escape dispatch performs no mode restoration beyond its input log. -/
theorem escDispatch_resetCount (ob : Option (List Nat)) (s : Stdin) (l : List Ev) :
    resetCount (escDispatch ob s l).2.2 = resetCount l := by
  rcases escDispatch_cases ob s l with ⟨k, hk⟩ | ⟨k, hk⟩
  · rw [hk]
  · rw [hk]
    simp [withLog, resetCount_append, tildeCheck_resetCount]

/-- `read_string` performs no mode restoration. -/
theorem readString_resetCount (t : Int) (r : Bool) (s : Stdin) :
    resetCount (readString t r s).2.2 = 0 := by
  unfold readString
  split_ifs <;> simp [resetCount]

/-- `process_key` performs no mode restoration: its log holds only polls and
reads. -/
theorem processKey_resetCount (t : Int) (r : Bool) (s : Stdin) :
    resetCount (processKey t r s).2.2 = 0 := by
  unfold processKey
  rcases h : readBytes 1 t r s with ⟨rr, s1, l1⟩
  have hl1 : ∀ a ∈ l1, ¬ a = Ev.resetCfgEv := by
    have hx := readBytes_resetCount 1 t r s
    rw [h] at hx
    simpa [resetCount, List.countP_eq_zero] using hx
  rcases rr with v | e
  · rcases v with _ | buf
    · simp [resetCount, resetCount_append] <;> exact hl1
    · rcases buf with _ | ⟨b, bs⟩
      · simp [resetCount, resetCount_append] <;> exact hl1
      · rcases bs with _ | ⟨b2, bs2⟩
        · simp only []
          by_cases h27 : b = 27
          · rw [if_pos h27]
            by_cases hpr : pollReady s1
            · rw [if_pos hpr]
              rcases h2 : readBytes0 2 s1 with ⟨r2, s2, l2⟩
              have hl2 : ∀ a ∈ l2, ¬ a = Ev.resetCfgEv := by
                have hx := readBytes_resetCount 2 0 (pollReady s1) s1
                rw [show readBytes 2 0 (pollReady s1) s1 = readBytes0 2 s1 from rfl,
                  h2] at hx
                simpa [resetCount, List.countP_eq_zero] using hx
              rcases r2 with v2 | e2
              · simp only []
                rw [escDispatch_resetCount]
                simp [resetCount, resetCount_append] <;> first | exact ⟨hl1, hl2⟩ | exact hl1 | exact hl2
              · simp [resetCount, resetCount_append] <;> first | exact ⟨hl1, hl2⟩ | exact hl1 | exact hl2
            · rw [if_neg hpr]
              simp [resetCount, resetCount_append] <;> exact hl1
          · rw [if_neg h27]
            by_cases hm2 : b &&& 224 = 192
            · rw [if_pos hm2]
              rcases h2 : readBytes0 1 s1 with ⟨r2, s2, l2⟩
              have hl2 : ∀ a ∈ l2, ¬ a = Ev.resetCfgEv := by
                have hx := readBytes_resetCount 1 0 (pollReady s1) s1
                rw [show readBytes 1 0 (pollReady s1) s1 = readBytes0 1 s1 from rfl,
                  h2] at hx
                simpa [resetCount, List.countP_eq_zero] using hx
              rcases r2 with v2 | e2
              · rcases v2 with _ | buf2
                · simp [resetCount, resetCount_append] <;> first | exact ⟨hl1, hl2⟩ | exact hl1 | exact hl2
                · rcases buf2 with _ | ⟨c, cs⟩
                  · simp [resetCount, resetCount_append] <;> first | exact ⟨hl1, hl2⟩ | exact hl1 | exact hl2
                  · rcases cs with _ | _ <;> simp [resetCount, resetCount_append] <;> first | exact ⟨hl1, hl2⟩ | exact hl1 | exact hl2
              · simp [resetCount, resetCount_append] <;> first | exact ⟨hl1, hl2⟩ | exact hl1 | exact hl2
            · rw [if_neg hm2]
              by_cases hm3 : b &&& 240 = 224
              · rw [if_pos hm3]
                rcases h2 : readBytes0 2 s1 with ⟨r2, s2, l2⟩
                have hl2 : ∀ a ∈ l2, ¬ a = Ev.resetCfgEv := by
                  have hx := readBytes_resetCount 2 0 (pollReady s1) s1
                  rw [show readBytes 2 0 (pollReady s1) s1 = readBytes0 2 s1 from rfl,
                    h2] at hx
                  simpa [resetCount, List.countP_eq_zero] using hx
                rcases r2 with v2 | e2
                · rcases v2 with _ | buf2
                  · simp [resetCount, resetCount_append] <;> first | exact ⟨hl1, hl2⟩ | exact hl1 | exact hl2
                  · rcases buf2 with _ | ⟨c, cs⟩
                    · simp [resetCount, resetCount_append] <;> first | exact ⟨hl1, hl2⟩ | exact hl1 | exact hl2
                    · rcases cs with _ | ⟨d, ds⟩
                      · simp [resetCount, resetCount_append] <;> first | exact ⟨hl1, hl2⟩ | exact hl1 | exact hl2
                      · rcases ds with _ | _ <;> simp [resetCount, resetCount_append] <;> first | exact ⟨hl1, hl2⟩ | exact hl1 | exact hl2
                · simp [resetCount, resetCount_append] <;> first | exact ⟨hl1, hl2⟩ | exact hl1 | exact hl2
              · rw [if_neg hm3]
                by_cases hm4 : b &&& 248 = 240
                · rw [if_pos hm4]
                  rcases h2 : readBytes0 3 s1 with ⟨r2, s2, l2⟩
                  have hl2 : ∀ a ∈ l2, ¬ a = Ev.resetCfgEv := by
                    have hx := readBytes_resetCount 3 0 (pollReady s1) s1
                    rw [show readBytes 3 0 (pollReady s1) s1 = readBytes0 3 s1 from rfl,
                      h2] at hx
                    simpa [resetCount, List.countP_eq_zero] using hx
                  rcases r2 with v2 | e2
                  · rcases v2 with _ | buf2
                    · simp [resetCount, resetCount_append] <;> first | exact ⟨hl1, hl2⟩ | exact hl1 | exact hl2
                    · rcases buf2 with _ | ⟨c, cs⟩
                      · simp [resetCount, resetCount_append] <;> first | exact ⟨hl1, hl2⟩ | exact hl1 | exact hl2
                      · rcases cs with _ | ⟨d, ds⟩
                        · simp [resetCount, resetCount_append] <;> first | exact ⟨hl1, hl2⟩ | exact hl1 | exact hl2
                        · rcases ds with _ | ⟨e3, es⟩
                          · simp [resetCount, resetCount_append] <;> first | exact ⟨hl1, hl2⟩ | exact hl1 | exact hl2
                          · rcases es with _ | _ <;> simp [resetCount, resetCount_append] <;> first | exact ⟨hl1, hl2⟩ | exact hl1 | exact hl2
                  · simp [resetCount, resetCount_append] <;> first | exact ⟨hl1, hl2⟩ | exact hl1 | exact hl2
                · rw [if_neg hm4]
                  split_ifs <;> (simp [resetCount, resetCount_append] <;> exact hl1)
        · simp [resetCount, resetCount_append] <;> exact hl1
  · simp [resetCount, resetCount_append] <;> exact hl1

/-- An event-list append splits its poll waits. -/
theorem poll_waits_append (a b : List Ev) :
    poll_waits (a ++ b) = poll_waits a ++ poll_waits b := by
  simp [poll_waits]

/-- If the underlying read never restores the mode, neither does the
decomposition loop. -/
theorem rotLoop_resetCount (f : Int → σ → IoRes (Option α) × σ × List Ev)
    (hres : ∀ (t : Int) (st : σ), resetCount (f t st).2.2 = 0) :
    ∀ (budget : Nat) (st : σ),
      resetCount (read_or_timeout_loop f budget st).2.2 = 0 := by
  intro budget
  induction budget using Nat.strong_induction_on with
  | _ budget ih =>
    intro st
    rcases hb : decide (i32Max < budget) with _ | _
    · have hb' : ¬ i32Max < budget := of_decide_eq_false hb
      rw [rotLoop_last f budget st hb']
      exact hres _ st
    · have hb' : i32Max < budget := of_decide_eq_true hb
      rcases hf : f ((i32Max : Nat) : Int) st with ⟨rr, st1, l⟩
      have hl : resetCount l = 0 := by
        have hx := hres ((i32Max : Nat) : Int) st
        rw [hf] at hx
        exact hx
      rcases rr with v | e
      · rcases v with _ | v
        · obtain ⟨e1, e2, e3⟩ := rotLoop_step_none_parts f budget st st1 l hb' hf
          rw [e3, resetCount_append, hl]
          have hlt : budget - i32Max < budget := by
            rw [i32Max_eq] at hb' ⊢
            omega
          rw [ih (budget - i32Max) hlt st1]
        · rw [rotLoop_step_some f budget st st1 l v hb' hf]
          simpa using hl
      · rw [rotLoop_step_err f budget st st1 l e hb' hf]
        simpa using hl

/-- The decomposition loop against an environment where data never arrives:
the result is `Ok(None)`, and the waits issued are a run of maximal
`i32::MAX` polls followed by one poll with the exact remainder, summing to
the whole requested budget. -/
theorem rot_oracle_elapse : ∀ budget : Nat,
    (read_or_timeout_loop oracle_read budget []).1 = .ok none ∧
    (read_or_timeout_loop oracle_read budget []).2.1 = [] ∧
    (poll_waits (read_or_timeout_loop oracle_read budget []).2.2).sum = (budget : Int) ∧
    ∃ n : Nat, n * i32Max ≤ budget ∧ budget - n * i32Max ≤ i32Max ∧
      poll_waits (read_or_timeout_loop oracle_read budget []).2.2 =
        List.replicate n ((i32Max : Nat) : Int) ++ [((budget - n * i32Max : Nat) : Int)] := by
  intro budget
  induction budget using Nat.strong_induction_on with
  | _ budget ih =>
    by_cases hb : i32Max < budget
    · obtain ⟨e1, e2, e3⟩ := rotLoop_step_none_parts oracle_read budget [] []
        [.pollEv ((i32Max : Nat) : Int)] hb rfl
      rw [e1, e2, e3]
      have hlt : budget - i32Max < budget := by
        rw [i32Max_eq] at hb ⊢
        omega
      obtain ⟨h1, h2, h3, h4⟩ := ih (budget - i32Max) hlt
      refine ⟨?_, ?_, ?_, ?_⟩
      · assumption
      · assumption
      · rw [poll_waits_append]
        have hw : poll_waits [Ev.pollEv ((i32Max : Nat) : Int)] =
            [((i32Max : Nat) : Int)] := rfl
        rw [hw]
        rw [List.singleton_append, List.sum_cons, h3]
        rw [i32Max_eq] at hb ⊢
        omega
      · obtain ⟨n, hn1, hn2, hn3⟩ := h4
        refine ⟨n + 1, ?_, ?_, ?_⟩
        · rw [i32Max_eq] at hn1 hb ⊢
          omega
        · rw [i32Max_eq] at hn2 hb ⊢
          omega
        · rw [poll_waits_append]
          have hw : poll_waits [Ev.pollEv ((i32Max : Nat) : Int)] =
              [((i32Max : Nat) : Int)] := rfl
          rw [hw, hn3]
          have hcast : budget - i32Max - n * i32Max = budget - (n + 1) * i32Max := by
            rw [i32Max_eq]
            omega
          rw [hcast]
          rw [List.replicate_succ]
          simp
    · rw [rotLoop_last oracle_read budget [] hb]
      refine ⟨rfl, rfl, ?_, 0, ?_, ?_, ?_⟩
      · simp [oracle_read, poll_waits]
      · omega
      · rw [i32Max_eq] at hb ⊢
        omega
      · simp [oracle_read, poll_waits]

/-- C2: for every read of `N ≥ 1` bytes whose first byte is the interrupt
sentinel 0x03, `read_bytes` fails with `Interrupted` instead of returning
data (consuming the bytes the `libc::read` pulled), and this holds for the
lookahead reads inside escape sequences and UTF-8 sequences in progress, so
`process_key` propagates the cancellation instead of yielding a key: shown in
general at the `read_bytes` level and at the decoder level for a sentinel
right after ESC, after a CSI digit, and as a 2-, 3- and 4-byte UTF-8
continuation. -/
theorem c2_sentinel_cancels :
    (∀ (N : Nat) (t : Int) (s : Stdin), 1 ≤ N → s.pending.head? = some 3 →
      readBytes N t true s =
        (.err .interrupted, ⟨s.pending.drop N, s.eof⟩, [.pollEv t, .readEv N])) ∧
    (processKey 0 true ⟨[27, 3], false⟩).1 = .err .interrupted ∧
    (processKey 0 true ⟨[27, 91, 50, 3], false⟩).1 = .err .interrupted ∧
    (processKey 0 true ⟨[199, 3], false⟩).1 = .err .interrupted ∧
    (processKey 0 true ⟨[230, 3, 130], false⟩).1 = .err .interrupted ∧
    (processKey 0 true ⟨[243, 3, 1, 1], false⟩).1 = .err .interrupted :=
  ⟨readBytes_sentinel, by decide, by decide, by decide, by decide, by decide⟩

/-- C2 witness: `read_bytes::<2>` on a stream starting with 0x03. -/
theorem c2_sentinel_cancels_witness :
    readBytes 2 (-1) true ⟨[3, 65], false⟩ =
      (.err .interrupted, ⟨[], false⟩, [.pollEv (-1), .readEv 2]) := by
  have h := c2_sentinel_cancels.1 2 (-1) ⟨[3, 65], false⟩ (by omega) (by decide)
  simpa using h

/-- C4 counterexample: with a single byte 0x61 pending, the poll is ready, yet
`read_bytes::<2>` returns the zero-padded buffer `[0x61, 0]`, which is not
"the first 2 unread stream bytes" (`take 2` of the stream is just `[0x61]`):
the claim that a ready poll always yields exactly the next `N` stream bytes
fails. -/
theorem c4_counterexample :
    pollReady ⟨[97], false⟩ = true ∧
    (readBytes 2 0 true ⟨[97], false⟩).1 = .ok (some [97, 0]) ∧
    (⟨[97], false⟩ : Stdin).pending.take 2 = [97] ∧
    [97, 0] ≠ ([97] : List Nat) := by
  decide

/-- C4 amended: after a ready poll, `read_bytes::<N>` (`N ≥ 1`) returns
exactly the first `N` unread bytes when at least `N` are pending and the
first is not the sentinel; with `1 ≤ k < N` bytes pending it returns those
`k` bytes zero-padded to length `N`; it returns `None` exactly when the poll
reports not-ready (no bytes pending errors with EOF and a leading 0x03 errors
with Interrupted, per their own lemmas). -/
theorem c4_read_exact_amended :
    (∀ (N : Nat) (t : Int) (s : Stdin), 1 ≤ N → N ≤ s.pending.length →
      s.pending.head? ≠ some 3 →
      readBytes N t true s =
        (.ok (some (s.pending.take N)), ⟨s.pending.drop N, s.eof⟩,
          [.pollEv t, .readEv N])) ∧
    (∀ (N : Nat) (t : Int) (s : Stdin), 1 ≤ N → s.pending ≠ [] →
      s.pending.length < N → s.pending.head? ≠ some 3 →
      readBytes N t true s =
        (.ok (some (s.pending ++ List.replicate (N - s.pending.length) 0)),
          ⟨[], s.eof⟩, [.pollEv t, .readEv N])) ∧
    (∀ (N : Nat) (t : Int) (s : Stdin),
      readBytes N t false s = (.ok none, s, [.pollEv t])) ∧
    (∀ (N : Nat) (t : Int) (r : Bool) (s : Stdin),
      (readBytes N t r s).1 = .ok none → r = false) :=
  ⟨readBytes_full, readBytes_short, readBytes_notReady, readBytes_ok_none⟩

/-- C4 witness: three pending bytes, `N = 2`: exactly the first two are
returned and the third stays unread. -/
theorem c4_read_exact_amended_witness :
    readBytes 2 (-1) true ⟨[104, 105, 106], false⟩ =
      (.ok (some [104, 105]), ⟨[106], false⟩, [.pollEv (-1), .readEv 2]) := by
  have h := c4_read_exact_amended.1 2 (-1) ⟨[104, 105, 106], false⟩
    (by omega) (by decide) (by decide)
  simpa using h

/-- C7: reading the single byte 0x1B with no further byte pending decodes to
`Key::Escape`, consuming exactly that one byte; the log shows the one read,
one zero-wait follow-up poll and no further read attempt. -/
theorem c7_lone_escape (t : Int) :
    processKey t true ⟨[27], false⟩ =
      (.ok (some .Escape), ⟨[], false⟩, [.pollEv t, .readEv 1, .pollEv 0]) := rfl

/-- C7 witness: the blocking instance. -/
theorem c7_lone_escape_witness :
    processKey (-1) true ⟨[27], false⟩ =
      (.ok (some .Escape), ⟨[], false⟩, [.pollEv (-1), .readEv 1, .pollEv 0]) :=
  c7_lone_escape (-1)

/-- C10: a single byte at or above 0x80 that matches none of the 2-, 3- or
4-byte UTF-8 header patterns (so 0x80-0xBF or 0xF8-0xFF) decodes to
`Char(byte)` — the `Char` fallback is not restricted to ASCII. -/
theorem c10_high_byte_char (t : Int) (b : Nat)
    (hr : (128 ≤ b ∧ b ≤ 191) ∨ (248 ≤ b ∧ b ≤ 255)) :
    processKey t true ⟨[b], false⟩ =
      (.ok (some (.Char b)), ⟨[], false⟩, [.pollEv t, .readEv 1]) := by
  have h256 : b < 256 := by omega
  have hm2 : ¬(b &&& 224 = 192) := by rw [mask2_iff b h256]; omega
  have hm3 : ¬(b &&& 240 = 224) := by rw [mask3_iff b h256]; omega
  have hm4 : ¬(b &&& 248 = 240) := by rw [mask4_iff b h256]; omega
  have h27 : ¬(b = 27) := by omega
  have h3 : ¬(b = 3) := by omega
  have hc1 : ¬(b = 10 ∨ b = 13) := by omega
  have hc2 : ¬(b = 127) := by omega
  have hc3 : ¬(b = 9) := by omega
  have hc4 : ¬(b = 1) := by omega
  have hc5 : ¬(b = 5) := by omega
  have hc6 : ¬(b = 8) := by omega
  simp [processKey, readBytes, readBytes0, pollReady, hm2, hm3, hm4, h27, h3,
    hc1, hc2, hc3, hc4, hc5, hc6]

/-- C10 witness: byte 0xA1 decodes to `Char(0xA1)`. -/
theorem c10_high_byte_char_witness :
    processKey 0 true ⟨[161], false⟩ =
      (.ok (some (.Char 161)), ⟨[], false⟩, [.pollEv 0, .readEv 1]) :=
  c10_high_byte_char 0 161 (by omega)

/-- C3 counterexample: after `ESC [ 5` a trailing byte 0x03 — "any byte other
than a tilde" in the claim's words — makes decoding fail with `Interrupted`
instead of yielding `Key::Unknown`, so "yields Unknown ... never an error"
fails as stated. -/
theorem c3_counterexample :
    (processKey 0 true ⟨[27, 91, 53, 3], false⟩).1 = .err .interrupted ∧
    (processKey 0 true ⟨[27, 91, 53, 3], false⟩).1 ≠ .ok (some .Unknown) := by
  decide

/-- C3 amended: the CSI decoding table, with the sole exception that a
lookahead read whose first byte is the interrupt sentinel 0x03 aborts with
`Interrupted` instead of `Unknown`.  `ESC [ X` with `X` in A/B/C/D/H/F/Z
yields the arrow/Home/End/BackTab keys consuming exactly 3 bytes; `ESC [ d ~`
with digit d = 1..8 yields Home/Insert/Del/End/PageUp/PageDown/Home/End
consuming 4 bytes; a digit followed by any non-tilde byte other than 0x03
yields `Unknown` (consuming that byte); an unrecognized 2-byte lookahead
(second byte outside the table, or first byte neither `[` nor 0x03) yields
`Unknown` consuming exactly 3 bytes, the trailing byte left unconsumed —
never an error. -/
theorem c3_escape_table_amended (t : Int) (rest : List Nat) :
    (∀ p ∈ [(65, Key.ArrowUp), (66, Key.ArrowDown), (67, Key.ArrowRight),
        (68, Key.ArrowLeft), (72, Key.Home), (70, Key.End), (90, Key.BackTab)],
      processKey t true ⟨27 :: 91 :: p.1 :: rest, false⟩ =
        (.ok (some p.2), ⟨rest, false⟩,
          [.pollEv t, .readEv 1, .pollEv 0, .pollEv 0, .readEv 2])) ∧
    (∀ p ∈ [(49, Key.Home), (50, Key.Insert), (51, Key.Del), (52, Key.End),
        (53, Key.PageUp), (54, Key.PageDown), (55, Key.Home), (56, Key.End)],
      processKey t true ⟨27 :: 91 :: p.1 :: 126 :: rest, false⟩ =
        (.ok (some p.2), ⟨rest, false⟩,
          [.pollEv t, .readEv 1, .pollEv 0, .pollEv 0, .readEv 2, .pollEv 0, .readEv 1])) ∧
    (∀ p ∈ [(49, Key.Home), (50, Key.Insert), (51, Key.Del), (52, Key.End),
        (53, Key.PageUp), (54, Key.PageDown), (55, Key.Home), (56, Key.End)],
      ∀ b : Nat, b ≠ 126 → b ≠ 3 →
      processKey t true ⟨27 :: 91 :: p.1 :: b :: rest, false⟩ =
        (.ok (some .Unknown), ⟨rest, false⟩,
          [.pollEv t, .readEv 1, .pollEv 0, .pollEv 0, .readEv 2, .pollEv 0, .readEv 1])) ∧
    (∀ b : Nat, b ≠ 65 → b ≠ 66 → b ≠ 67 → b ≠ 68 → b ≠ 72 → b ≠ 70 → b ≠ 90 →
      b ≠ 49 → b ≠ 50 → b ≠ 51 → b ≠ 52 → b ≠ 53 → b ≠ 54 → b ≠ 55 → b ≠ 56 →
      processKey t true ⟨27 :: 91 :: b :: rest, false⟩ =
        (.ok (some .Unknown), ⟨rest, false⟩,
          [.pollEv t, .readEv 1, .pollEv 0, .pollEv 0, .readEv 2])) ∧
    (∀ a b : Nat, a ≠ 91 → a ≠ 3 →
      processKey t true ⟨27 :: a :: b :: rest, false⟩ =
        (.ok (some .Unknown), ⟨rest, false⟩,
          [.pollEv t, .readEv 1, .pollEv 0, .pollEv 0, .readEv 2])) := by
  refine ⟨?_, ?_, ?_, ?_, ?_⟩
  · intro p hp
    fin_cases hp <;>
      simp [processKey, readBytes, readBytes0, pollReady, withLog, escDispatch]
  · intro p hp
    fin_cases hp <;>
      simp [processKey, readBytes, readBytes0, pollReady, withLog, escDispatch, tildeCheck]
  · intro p hp b h126 h3
    fin_cases hp <;>
      simp [processKey, readBytes, readBytes0, pollReady, withLog, escDispatch,
        tildeCheck, h126, h3]
  · intro b h1 h2 h3 h4 h5 h6 h7 h8 h9 h10 h11 h12 h13 h14 h15
    simp [processKey, readBytes, readBytes0, pollReady, withLog, escDispatch,
      h1, h2, h3, h4, h5, h6, h7, h8, h9, h10, h11, h12, h13, h14, h15]
  · intro a b ha ha3
    simp [processKey, readBytes, readBytes0, pollReady, withLog, escDispatch, ha, ha3]

/-- C3 witness: `ESC [ 9` decodes to `Unknown` consuming exactly 3 bytes, the
trailing tilde left unconsumed. -/
theorem c3_escape_table_amended_witness :
    processKey 0 true ⟨[27, 91, 57, 126], false⟩ =
      (.ok (some .Unknown), ⟨[126], false⟩,
        [.pollEv 0, .readEv 1, .pollEv 0, .pollEv 0, .readEv 2]) :=
  (c3_escape_table_amended 0 [126]).2.2.2.1 57 (by omega) (by omega) (by omega)
    (by omega) (by omega) (by omega) (by omega) (by omega) (by omega) (by omega)
    (by omega) (by omega) (by omega) (by omega) (by omega)

/-- C8 counterexample: a two-byte UTF-8 header 0xC3 followed by the sentinel
0x03 — a span that is not valid UTF-8 — fails with `Interrupted` instead of
yielding `Key::Unknown`, so "yields Unknown ... never an error" fails as
stated. -/
theorem c8_counterexample :
    (processKey 0 true ⟨[195, 3], false⟩).1 = .err .interrupted ∧
    (processKey 0 true ⟨[195, 3], false⟩).1 ≠ .ok (some .Unknown) := by
  decide

/-- C8 amended: for each 2-, 3- or 4-byte UTF-8 header the decoder reads the
1, 2 or 3 continuation bytes with zero wait and yields the `From<&[u8]>`
conversion of the full span (so `Char` of the encoded scalar when the span is
valid UTF-8, `Unknown` when it is malformed — overlong forms and surrogates
included — and `Unknown` when the continuation bytes are not ready), with one
exception: if the first byte of a continuation read is the sentinel 0x03 the
read aborts with `Interrupted` rather than producing `Unknown`. -/
theorem c8_utf8_decoding_amended :
    (∀ (t : Int) (b1 b2 : Nat) (rest : List Nat), b1 &&& 224 = 192 → b1 < 256 →
      b2 ≠ 3 →
      processKey t true ⟨b1 :: b2 :: rest, false⟩ =
        (.ok (some (keyFrom [b1, b2])), ⟨rest, false⟩,
          [.pollEv t, .readEv 1, .pollEv 0, .readEv 1])) ∧
    (∀ (t : Int) (b1 b2 b3 : Nat) (rest : List Nat), b1 &&& 240 = 224 → b1 < 256 →
      b2 ≠ 3 →
      processKey t true ⟨b1 :: b2 :: b3 :: rest, false⟩ =
        (.ok (some (keyFrom [b1, b2, b3])), ⟨rest, false⟩,
          [.pollEv t, .readEv 1, .pollEv 0, .readEv 2])) ∧
    (∀ (t : Int) (b1 b2 b3 b4 : Nat) (rest : List Nat), b1 &&& 248 = 240 →
      b1 < 256 → b2 ≠ 3 →
      processKey t true ⟨b1 :: b2 :: b3 :: b4 :: rest, false⟩ =
        (.ok (some (keyFrom [b1, b2, b3, b4])), ⟨rest, false⟩,
          [.pollEv t, .readEv 1, .pollEv 0, .readEv 3])) ∧
    (∀ (t : Int) (b1 : Nat), b1 &&& 224 = 192 → b1 < 256 →
      processKey t true ⟨[b1], false⟩ =
        (.ok (some .Unknown), ⟨[], false⟩, [.pollEv t, .readEv 1, .pollEv 0])) ∧
    (∀ (t : Int) (b1 b2 : Nat), b1 &&& 240 = 224 → b1 < 256 → b2 ≠ 3 →
      processKey t true ⟨[b1, b2], false⟩ =
        (.ok (some .Unknown), ⟨[], false⟩,
          [.pollEv t, .readEv 1, .pollEv 0, .readEv 2])) ∧
    (∀ b1 b2 : Nat, 194 ≤ b1 → b1 ≤ 223 → 128 ≤ b2 → b2 ≤ 191 →
      keyFrom [b1, b2] = .Char ((b1 - 192) * 64 + (b2 - 128))) ∧
    (∀ bs : List Nat, utf8Valid bs = false → keyFrom bs = .Unknown) ∧
    (∀ b2 : Nat, keyFrom [192, b2] = .Unknown ∧ keyFrom [193, b2] = .Unknown) ∧
    (keyFrom [195, 169] = .Char 233 ∧ keyFrom [226, 130, 172] = .Char 8364 ∧
      keyFrom [240, 159, 152, 128] = .Char 128512 ∧
      keyFrom [237, 160, 128] = .Unknown) := by
  refine ⟨?_, ?_, ?_, ?_, ?_, keyFrom_two_bytes, keyFrom_invalid, ?_, by decide⟩
  · intro t b1 b2 rest hm hb256 h3
    have hr : 192 ≤ b1 ∧ b1 ≤ 223 := (mask2_iff b1 hb256).mp hm
    have h27 : ¬(b1 = 27) := by omega
    have h13 : ¬(b1 = 3) := by omega
    simp [processKey, readBytes, readBytes0, pollReady, hm, h27, h13, h3]
  · intro t b1 b2 b3 rest hm hb256 h3
    have hr : 224 ≤ b1 ∧ b1 ≤ 239 := (mask3_iff b1 hb256).mp hm
    have hm2 : ¬(b1 &&& 224 = 192) := by rw [mask2_iff b1 hb256]; omega
    have h27 : ¬(b1 = 27) := by omega
    have h13 : ¬(b1 = 3) := by omega
    simp [processKey, readBytes, readBytes0, pollReady, hm, hm2, h27, h13, h3]
  · intro t b1 b2 b3 b4 rest hm hb256 h3
    have hr : 240 ≤ b1 ∧ b1 ≤ 247 := (mask4_iff b1 hb256).mp hm
    have hm2 : ¬(b1 &&& 224 = 192) := by rw [mask2_iff b1 hb256]; omega
    have hm3 : ¬(b1 &&& 240 = 224) := by rw [mask3_iff b1 hb256]; omega
    have h27 : ¬(b1 = 27) := by omega
    have h13 : ¬(b1 = 3) := by omega
    simp [processKey, readBytes, readBytes0, pollReady, hm, hm2, hm3, h27, h13, h3]
  · intro t b1 hm hb256
    have hr : 192 ≤ b1 ∧ b1 ≤ 223 := (mask2_iff b1 hb256).mp hm
    have h27 : ¬(b1 = 27) := by omega
    have h13 : ¬(b1 = 3) := by omega
    simp [processKey, readBytes, readBytes0, pollReady, hm, h27, h13]
  · intro t b1 b2 hm hb256 h3
    have hr : 224 ≤ b1 ∧ b1 ≤ 239 := (mask3_iff b1 hb256).mp hm
    have hm2 : ¬(b1 &&& 224 = 192) := by rw [mask2_iff b1 hb256]; omega
    have h27 : ¬(b1 = 27) := by omega
    have h13 : ¬(b1 = 3) := by omega
    have hpad := keyFrom_pad3_unknown b1 b2 hr
    simp [processKey, readBytes, readBytes0, pollReady, hm, hm2, h27, h13, h3, hpad]
  · intro b2
    exact ⟨keyFrom_overlong2 192 b2 (Or.inl rfl), keyFrom_overlong2 193 b2 (Or.inr rfl)⟩

/-- C8 witness: the two bytes 0xC3 0xA9 decode to `Char` of U+00E9. -/
theorem c8_utf8_decoding_amended_witness :
    processKey 0 true ⟨[195, 169], false⟩ =
      (.ok (some (.Char 233)), ⟨[], false⟩,
        [.pollEv 0, .readEv 1, .pollEv 0, .readEv 1]) := by
  have h := c8_utf8_decoding_amended.1 0 195 169 [] (by decide) (by omega) (by omega)
  simpa [keyFrom, utf8Valid, utf8ValidFuel, utf8DecodeFirst] using h

/-- C9: the blocking disciplines unwrap the `Option` of the underlying read.
When the infinite-wait poll reports ready (its contract), the `None` branch is
unreachable and the unwrap cannot panic — for `read_key`, `read_string` and
`read_string_hidden`; when that precondition fails and the poll wakes
without readable data, every blocking discipline panics instead of returning
an error. -/
theorem c9_blocking_unwrap :
    (∀ w : World, (read_key_blocking true w).1 ≠ .panicked) ∧
    (∀ w : World, (read_key_blocking false w).1 = .panicked) ∧
    (∀ w : World, (read_string_blocking true w).1 ≠ .panicked) ∧
    (∀ w : World, (read_string_blocking false w).1 = .panicked) ∧
    (∀ w : World, (read_string_hidden_blocking true w).1 ≠ .panicked) ∧
    (∀ w : World, (read_string_hidden_blocking false w).1 = .panicked) := by
  refine ⟨?_, ?_, ?_, ?_, ?_, ?_⟩
  · intro w
    simp only [read_key_blocking, blockingRead]
    rcases hf : processKey (-1) true
        (setConfig false [.NotCanonical, .NotEcho] w).2.1.stdin with ⟨r, s1, l⟩
    rcases r with v | e
    · rcases v with _ | k
      · exact absurd (by rw [hf]) (processKey_ready_ne_none (-1) _)
      · simp
    · simp
  · intro w
    simp only [read_key_blocking, blockingRead, processKey_notReady]
  · intro w
    simp only [read_string_blocking, blockingRead, readString]
    simp
  · intro w
    simp only [read_string_blocking, blockingRead, readString_notReady]
  · intro w
    simp only [read_string_hidden_blocking, blockingRead, readString]
    simp
  · intro w
    simp only [read_string_hidden_blocking, blockingRead, readString_notReady]

/-- C9 witness: a truthful ready poll with a byte pending never panics; a
poll reporting not-ready panics. -/
theorem c9_blocking_unwrap_witness :
    (read_key_blocking true ⟨⟨true, true⟩, ⟨[97], false⟩⟩).1 ≠ .panicked ∧
    (read_key_blocking false ⟨⟨true, true⟩, ⟨[], false⟩⟩).1 = .panicked :=
  ⟨c9_blocking_unwrap.1 ⟨⟨true, true⟩, ⟨[97], false⟩⟩,
    c9_blocking_unwrap.2.1 ⟨⟨true, true⟩, ⟨[], false⟩⟩⟩

/-- C6: one cooperative step performs exactly one zero-wait poll and read
attempt.  With no input pending the step returns `Pending`, leaves the future
state and the world untouched (the event log is the single zero-wait poll —
nothing blocks), and this holds under any number of repeated invocations;
once input is available, the next step never returns `Pending`: it returns
the decoded key (or line) as `Ready`, restoring the stored mode snapshot. -/
theorem c6_cooperative_step :
    (∀ (w : World) (m : Mode), pollReady w.stdin = false →
      read_key_future_step ⟨some (.ok m)⟩ w =
        (.pending, ⟨some (.ok m)⟩, w, [.pollEv 0])) ∧
    (∀ (n : Nat) (w : World) (m : Mode), pollReady w.stdin = false →
      iter_key_step n (⟨some (.ok m)⟩, w) = (⟨some (.ok m)⟩, w)) ∧
    (∀ (w : World) (m : Mode) (k : Key), pollReady w.stdin = true →
      (processKey 0 true w.stdin).1 = .ok (some k) →
      (read_key_future_step ⟨some (.ok m)⟩ w).1 = .ready (.ok k) ∧
      (read_key_future_step ⟨some (.ok m)⟩ w).2.2.1.mode = m) ∧
    (∀ (w : World) (m : Mode), pollReady w.stdin = true →
      (read_key_future_step ⟨some (.ok m)⟩ w).1 ≠ .pending) ∧
    (∀ (w : World) (m : Mode), pollReady w.stdin = false →
      read_string_future_step ⟨some (.ok m)⟩ w =
        (.pending, ⟨some (.ok m)⟩, w, [.pollEv 0])) ∧
    (∀ (w : World) (m : Mode) (line : List Nat), pollReady w.stdin = true →
      (readString 0 true w.stdin).1 = .ok (some line) →
      (read_string_future_step ⟨some (.ok m)⟩ w).1 = .ready (.ok line)) := by
  refine ⟨?_, ?_, ?_, ?_, ?_, ?_⟩
  · intro w m hp
    simp [read_key_future_step, future_poll, hp, processKey_notReady]
  · intro n
    induction n with
    | zero => intro w m hp; rfl
    | succ k ih =>
      intro w m hp
      simp only [iter_key_step]
      have h1 : read_key_future_step ⟨some (.ok m)⟩ w =
          (.pending, ⟨some (.ok m)⟩, w, [.pollEv 0]) := by
        simp [read_key_future_step, future_poll, hp, processKey_notReady]
      rw [h1]
      exact ih w m hp
  · intro w m k hp hk
    rcases hf : processKey 0 true w.stdin with ⟨r, s1, l⟩
    have hr : r = .ok (some k) := by
      have := hk
      rw [hf] at this
      exact this
    subst hr
    constructor <;>
      simp [read_key_future_step, future_poll, hp, hf, resetConfig]
  · intro w m hp
    rcases hf : processKey 0 true w.stdin with ⟨r, s1, l⟩
    rcases r with v | e
    · rcases v with _ | k
      · exact absurd (by rw [hf]) (processKey_ready_ne_none 0 _)
      · simp [read_key_future_step, future_poll, hp, hf, resetConfig]
    · simp [read_key_future_step, future_poll, hp, hf]
  · intro w m hp
    simp [read_string_future_step, future_poll, hp, readString_notReady]
  · intro w m line hp hl
    rcases hf : readString 0 true w.stdin with ⟨r, s1, l⟩
    have hr : r = .ok (some line) := by
      have := hl
      rw [hf] at this
      exact this
    subst hr
    simp [read_string_future_step, future_poll, hp, hf, resetConfig]

/-- C6 witness: a step on an empty stream is `Pending` after one zero-wait
poll, with future state and world untouched. -/
theorem c6_cooperative_step_witness :
    read_key_future_step ⟨some (.ok ⟨true, true⟩)⟩ ⟨⟨false, false⟩, ⟨[], false⟩⟩ =
      (.pending, ⟨some (.ok ⟨true, true⟩)⟩, ⟨⟨false, false⟩, ⟨[], false⟩⟩,
        [.pollEv 0]) :=
  c6_cooperative_step.1 ⟨⟨false, false⟩, ⟨[], false⟩⟩ ⟨true, true⟩ (by decide)


/-- With no pending input and no EOF the static key read reports no data and
leaves the stream untouched, whatever the wait. -/
theorem processKeyStatic_empty (t : Int) (s : Stdin)
    (hp : s.pending = []) (he : s.eof = false) :
    processKeyStatic t s = (.ok none, s, [.pollEv t]) := by
  have hr : pollReady s = false := by simp [pollReady, hp, he]
  rw [processKeyStatic, hr, processKey_notReady]

/-- With no pending input and no EOF the static line read reports no data and
leaves the stream untouched, whatever the wait. -/
theorem readStringStatic_empty (t : Int) (s : Stdin)
    (hp : s.pending = []) (he : s.eof = false) :
    readStringStatic t s = (.ok none, s, [.pollEv t]) := by
  have hr : pollReady s = false := by simp [pollReady, hp, he]
  rw [readStringStatic, hr, readString_notReady]

/-- C5: the `read_or_timeout!` loop converts the timeout to milliseconds and,
while the remainder exceeds `i32::MAX`, polls with `i32::MAX` and subtracts it,
finally polling once with the remainder: against an oracle that always reports
no data, the loop returns `Ok(None)`, its recorded waits sum to the full
budget and form `n` copies of `i32::MAX` followed by the remainder
`budget - n * i32::MAX ≤ i32::MAX`; a zero timeout performs exactly one poll
with wait 0; and on a stream with no pending data and no EOF,
`read_key_or_timeout` and `read_string_or_timeout` return `Ok(None)` with the
world unchanged (mode restored). -/
theorem c5_timeout_decomposition :
    (∀ budget : Nat,
      (read_or_timeout_loop oracle_read budget []).1 = .ok none ∧
      (poll_waits (read_or_timeout_loop oracle_read budget []).2.2).sum =
        (budget : Int) ∧
      (∃ n : Nat, n * i32Max ≤ budget ∧ budget - n * i32Max ≤ i32Max ∧
        poll_waits (read_or_timeout_loop oracle_read budget []).2.2 =
          List.replicate n ((i32Max : Nat) : Int) ++
            [((budget - n * i32Max : Nat) : Int)])) ∧
    read_or_timeout_loop oracle_read 0 [] = (.ok none, [], [.pollEv 0]) ∧
    (∀ (budget : Nat) (w : World), w.stdin.pending = [] → w.stdin.eof = false →
      (read_key_or_timeout budget w).1 = .ok none ∧
      (read_key_or_timeout budget w).2.1 = w) ∧
    (∀ (budget : Nat) (w : World), w.stdin.pending = [] → w.stdin.eof = false →
      (read_string_or_timeout budget w).1 = .ok none ∧
      (read_string_or_timeout budget w).2.1 = w) := by
  refine ⟨?_, ?_, ?_, ?_⟩
  · intro budget
    obtain ⟨h1, h2, h3, h4⟩ := rot_oracle_elapse budget
    exact ⟨h1, h3, h4⟩
  · rw [rotLoop_last oracle_read 0 [] (by rw [i32Max_eq]; omega)]
    norm_num [oracle_read]
  · intro budget w hp he
    rcases w with ⟨mode, stdin⟩
    rcases stdin with ⟨pending, eof⟩
    simp only [] at hp he
    subst hp
    subst he
    have hs : ∀ t : Int, processKeyStatic t (⟨[], false⟩ : Stdin) =
        (.ok none, (⟨[], false⟩ : Stdin), [.pollEv t]) := fun t =>
      processKeyStatic_empty t ⟨[], false⟩ rfl rfl
    have hL := rotLoop_static_none processKeyStatic (⟨[], false⟩ : Stdin) hs budget
    rcases hLL : read_or_timeout_loop processKeyStatic budget (⟨[], false⟩ : Stdin)
      with ⟨rr, s1, l⟩
    rw [hLL] at hL
    obtain ⟨hr1, hr2⟩ := hL
    simp only [triple_fst, triple_snd_fst] at hr1 hr2
    subst hr1
    subst hr2
    simp only [read_key_or_timeout, read_or_timeout]
    have hst : (setConfig false [.NotCanonical, .NotEcho]
        (⟨mode, ⟨[], false⟩⟩ : World)).2.1.stdin = (⟨[], false⟩ : Stdin) := rfl
    rw [hst, hLL]
    exact ⟨rfl, rfl⟩
  · intro budget w hp he
    rcases w with ⟨mode, stdin⟩
    rcases stdin with ⟨pending, eof⟩
    simp only [] at hp he
    subst hp
    subst he
    have hs : ∀ t : Int, readStringStatic t (⟨[], false⟩ : Stdin) =
        (.ok none, (⟨[], false⟩ : Stdin), [.pollEv t]) := fun t =>
      readStringStatic_empty t ⟨[], false⟩ rfl rfl
    have hL := rotLoop_static_none readStringStatic (⟨[], false⟩ : Stdin) hs budget
    rcases hLL : read_or_timeout_loop readStringStatic budget (⟨[], false⟩ : Stdin)
      with ⟨rr, s1, l⟩
    rw [hLL] at hL
    obtain ⟨hr1, hr2⟩ := hL
    simp only [triple_fst, triple_snd_fst] at hr1 hr2
    subst hr1
    subst hr2
    simp only [read_string_or_timeout, read_or_timeout]
    have hst : (setConfig true [.Canonical, .Echo]
        (⟨mode, ⟨[], false⟩⟩ : World)).2.1.stdin = (⟨[], false⟩ : Stdin) := rfl
    rw [hst, hLL]
    exact ⟨rfl, rfl⟩

theorem c5_timeout_decomposition_witness :
    (read_key_or_timeout 0 ⟨⟨true, true⟩, ⟨[], false⟩⟩).1 = .ok none ∧
    (read_key_or_timeout 0 ⟨⟨true, true⟩, ⟨[], false⟩⟩).2.1 =
      (⟨⟨true, true⟩, ⟨[], false⟩⟩ : World) :=
  c5_timeout_decomposition.2.2.1 0 ⟨⟨true, true⟩, ⟨[], false⟩⟩ rfl rfl


/-- Restoration discipline of the shared blocking-read shape: the snapshot is
restored exactly once on a successful read, and zero times when an error
propagates (the mode stays as the flags set it) or the unwrap panics. -/
theorem blockingRead_restore {α : Type}
    (f : Int → Bool → Stdin → IoRes (Option α) × Stdin × List Ev)
    (hres : ∀ (t : Int) (r : Bool) (s : Stdin), resetCount (f t r s).2.2 = 0)
    (flush : Bool) (flags : List Flag) (ready1 : Bool) (w : World) :
    (∀ v : α, (blockingRead f flush flags ready1 w).1 = .ok v →
      (blockingRead f flush flags ready1 w).2.1.mode = w.mode ∧
      resetCount (blockingRead f flush flags ready1 w).2.2 = 1) ∧
    (∀ e : IoErr, (blockingRead f flush flags ready1 w).1 = .err e →
      (blockingRead f flush flags ready1 w).2.1.mode = applyFlags flags w.mode ∧
      resetCount (blockingRead f flush flags ready1 w).2.2 = 0) ∧
    ((blockingRead f flush flags ready1 w).1 = .panicked →
      resetCount (blockingRead f flush flags ready1 w).2.2 = 0) := by
  rcases hf : f (-1) ready1 (setConfig flush flags w).2.1.stdin with ⟨rr, s1, l2⟩
  have hl2 : resetCount l2 = 0 := by
    have hx := hres (-1) ready1 (setConfig flush flags w).2.1.stdin
    rw [hf] at hx
    simpa using hx
  have hbr : blockingRead f flush flags ready1 w =
      match (rr, s1, l2) with
      | (.err e, s1, l2) =>
        (.err e, ⟨(setConfig flush flags w).2.1.mode, s1⟩,
          (setConfig flush flags w).2.2 ++ l2)
      | (.ok none, s1, l2) =>
        (.panicked, ⟨(setConfig flush flags w).2.1.mode, s1⟩,
          (setConfig flush flags w).2.2 ++ l2)
      | (.ok (some v), s1, l2) =>
        let q := resetConfig (setConfig flush flags w).1
          ⟨(setConfig flush flags w).2.1.mode, s1⟩
        (.ok v, q.1, (setConfig flush flags w).2.2 ++ l2 ++ q.2) := by
    rw [blockingRead, hf]
  rcases rr with v | e
  · rcases v with _ | v
    · refine ⟨?_, ?_, ?_⟩
      · intro v hv
        rw [hbr] at hv
        simp at hv
      · intro e he
        rw [hbr] at he
        simp at he
      · intro _
        rw [hbr]
        simp [resetCount, resetCount_append, setConfig]
        simpa [resetCount] using hl2
    · refine ⟨?_, ?_, ?_⟩
      · intro v0 hv
        rw [hbr]
        refine ⟨rfl, ?_⟩
        simp [resetCount_append, setConfig, resetConfig]
        simpa [resetCount] using hl2
      · intro e he
        rw [hbr] at he
        simp at he
      · intro hp
        rw [hbr] at hp
        simp at hp
  · refine ⟨?_, ?_, ?_⟩
    · intro v hv
      rw [hbr] at hv
      simp at hv
    · intro e0 he
      rw [hbr]
      refine ⟨rfl, ?_⟩
      simp [resetCount, resetCount_append, setConfig]
      simpa [resetCount] using hl2
    · intro hp
      rw [hbr] at hp
      simp at hp


/-- Restoration discipline of the `read_or_timeout!` body: one restoration
when the loop concludes with a value or `None`, none when an error
propagates through the trailing `?`. -/
theorem read_or_timeout_restore {α : Type}
    (f : Int → Stdin → IoRes (Option α) × Stdin × List Ev)
    (hres : ∀ (t : Int) (s : Stdin), resetCount (f t s).2.2 = 0)
    (flush : Bool) (flags : List Flag) (budget : Nat) (w : World) :
    (∀ v : Option α, (read_or_timeout f flush flags budget w).1 = .ok v →
      (read_or_timeout f flush flags budget w).2.1.mode = w.mode ∧
      resetCount (read_or_timeout f flush flags budget w).2.2 = 1) ∧
    (∀ e : IoErr, (read_or_timeout f flush flags budget w).1 = .err e →
      (read_or_timeout f flush flags budget w).2.1.mode = applyFlags flags w.mode ∧
      resetCount (read_or_timeout f flush flags budget w).2.2 = 0) := by
  rcases hf : read_or_timeout_loop f budget (setConfig flush flags w).2.1.stdin
    with ⟨rr, s1, l2⟩
  have hl2 : resetCount l2 = 0 := by
    have hx := rotLoop_resetCount f hres budget (setConfig flush flags w).2.1.stdin
    rw [hf] at hx
    simpa using hx
  have hbr : read_or_timeout f flush flags budget w =
      match (rr, s1, l2) with
      | (.err e, s1, l2) =>
        (.err e, ⟨(setConfig flush flags w).2.1.mode, s1⟩,
          (setConfig flush flags w).2.2 ++ l2)
      | (.ok v, s1, l2) =>
        let q := resetConfig (setConfig flush flags w).1
          ⟨(setConfig flush flags w).2.1.mode, s1⟩
        (.ok v, q.1, (setConfig flush flags w).2.2 ++ l2 ++ q.2) := by
    rw [read_or_timeout, hf]
  rcases rr with v | e
  · refine ⟨?_, ?_⟩
    · intro v0 hv
      rw [hbr]
      refine ⟨rfl, ?_⟩
      simp [resetCount_append, setConfig, resetConfig]
      simpa [resetCount] using hl2
    · intro e he
      rw [hbr] at he
      simp at he
  · refine ⟨?_, ?_⟩
    · intro v hv
      rw [hbr] at hv
      simp at hv
    · intro e0 he
      rw [hbr]
      refine ⟨rfl, ?_⟩
      simp [resetCount, resetCount_append, setConfig]
      simpa [resetCount] using hl2

/-- Restoration discipline of one `ReadFuture::poll` step holding a live
snapshot: restored exactly once when the read produces a value, untouched on
a pending step (the snapshot is put back) and on an error return. -/
theorem future_poll_restore {α : Type}
    (f : Stdin → IoRes (Option α) × Stdin × List Ev)
    (hres : ∀ s : Stdin, resetCount (f s).2.2 = 0)
    (m : Mode) (w : World) :
    (∀ v : α, (future_poll f ⟨some (.ok m)⟩ w).1 = .ready (.ok v) →
      (future_poll f ⟨some (.ok m)⟩ w).2.2.1.mode = m ∧
      resetCount (future_poll f ⟨some (.ok m)⟩ w).2.2.2 = 1) ∧
    (∀ e : IoErr, (future_poll f ⟨some (.ok m)⟩ w).1 = .ready (.err e) →
      (future_poll f ⟨some (.ok m)⟩ w).2.2.1.mode = w.mode ∧
      resetCount (future_poll f ⟨some (.ok m)⟩ w).2.2.2 = 0) ∧
    ((future_poll f ⟨some (.ok m)⟩ w).1 = .pending →
      (future_poll f ⟨some (.ok m)⟩ w).2.1 = (⟨some (.ok m)⟩ : FutState) ∧
      (future_poll f ⟨some (.ok m)⟩ w).2.2.1.mode = w.mode ∧
      resetCount (future_poll f ⟨some (.ok m)⟩ w).2.2.2 = 0) := by
  rcases hf : f w.stdin with ⟨rr, s1, l⟩
  have hl : resetCount l = 0 := by
    have hx := hres w.stdin
    rw [hf] at hx
    simpa using hx
  have hbr : future_poll f ⟨some (.ok m)⟩ w =
      match (rr, s1, l) with
      | (.err e, s1, l) => (.ready (.err e), ⟨none⟩, ⟨w.mode, s1⟩, l)
      | (.ok (some out), s1, l) =>
        let q := resetConfig m ⟨w.mode, s1⟩
        (.ready (.ok out), ⟨none⟩, q.1, l ++ q.2)
      | (.ok none, s1, l) => (.pending, ⟨some (.ok m)⟩, ⟨w.mode, s1⟩, l) := by
    rw [future_poll, hf]
  rcases rr with v | e
  · rcases v with _ | v
    · refine ⟨?_, ?_, ?_⟩
      · intro v hv
        rw [hbr] at hv
        simp at hv
      · intro e he
        rw [hbr] at he
        simp at he
      · intro _
        rw [hbr]
        refine ⟨rfl, rfl, ?_⟩
        simpa [resetCount] using hl
    · refine ⟨?_, ?_, ?_⟩
      · intro v0 hv
        rw [hbr]
        refine ⟨rfl, ?_⟩
        simp [resetCount_append, resetConfig]
        simpa [resetCount] using hl
      · intro e he
        rw [hbr] at he
        simp at he
      · intro hp
        rw [hbr] at hp
        simp at hp
  · refine ⟨?_, ?_, ?_⟩
    · intro v hv
      rw [hbr] at hv
      simp at hv
    · intro e0 he
      rw [hbr]
      refine ⟨rfl, ?_⟩
      simpa [resetCount] using hl
    · intro hp
      rw [hbr] at hp
      simp at hp


/-- C1 counterexample: a blocking `read_key` whose underlying read fails with
the interrupt sentinel (`Ctrl-C` pending).  The mode configuration is applied
(the log starts with the set-mode call) and the operation exits on the error
path, yet no restoration is recorded and the terminal mode is left as the
flags set it, not the pre-read snapshot: the `?` on `read_key(self, -1)` in
`src/streams/mod.rs` returns before `reset_config` runs, so "restored exactly
once ... on every exit path" fails. -/
theorem c1_counterexample :
    (read_key_blocking true ⟨⟨true, true⟩, ⟨[3], false⟩⟩).1 = .err .interrupted ∧
    (read_key_blocking true ⟨⟨true, true⟩, ⟨[3], false⟩⟩).2.2.head? = some .setCfgEv ∧
    resetCount (read_key_blocking true ⟨⟨true, true⟩, ⟨[3], false⟩⟩).2.2 = 0 ∧
    (read_key_blocking true ⟨⟨true, true⟩, ⟨[3], false⟩⟩).2.1.mode ≠ ⟨true, true⟩ := by
  decide

/-- C1 amended: across every read discipline (blocking, timeout-bounded and
future-driven, over key and line reads), once the mode configuration has been
applied the original snapshot is restored exactly once on the successful exit
path; on an error exit no restoration occurs and the mode stays as the flags
set it (for the future, the pre-step mode); a pending future step keeps the
snapshot stored and performs no restoration; a panic of the blocking unwrap
performs no restoration. -/
theorem c1_mode_restore_amended :
    (∀ (ready1 : Bool) (w : World),
      (∀ v, (read_key_blocking ready1 w).1 = .ok v →
        (read_key_blocking ready1 w).2.1.mode = w.mode ∧
        resetCount (read_key_blocking ready1 w).2.2 = 1) ∧
      (∀ e, (read_key_blocking ready1 w).1 = .err e →
        (read_key_blocking ready1 w).2.1.mode =
          applyFlags [.NotCanonical, .NotEcho] w.mode ∧
        resetCount (read_key_blocking ready1 w).2.2 = 0) ∧
      ((read_key_blocking ready1 w).1 = .panicked →
        resetCount (read_key_blocking ready1 w).2.2 = 0)) ∧
    (∀ (ready1 : Bool) (w : World),
      (∀ v, (read_string_blocking ready1 w).1 = .ok v →
        (read_string_blocking ready1 w).2.1.mode = w.mode ∧
        resetCount (read_string_blocking ready1 w).2.2 = 1) ∧
      (∀ e, (read_string_blocking ready1 w).1 = .err e →
        resetCount (read_string_blocking ready1 w).2.2 = 0)) ∧
    (∀ (ready1 : Bool) (w : World),
      (∀ v, (read_string_hidden_blocking ready1 w).1 = .ok v →
        (read_string_hidden_blocking ready1 w).2.1.mode = w.mode ∧
        resetCount (read_string_hidden_blocking ready1 w).2.2 = 1) ∧
      (∀ e, (read_string_hidden_blocking ready1 w).1 = .err e →
        resetCount (read_string_hidden_blocking ready1 w).2.2 = 0)) ∧
    (∀ (budget : Nat) (w : World),
      (∀ v, (read_key_or_timeout budget w).1 = .ok v →
        (read_key_or_timeout budget w).2.1.mode = w.mode ∧
        resetCount (read_key_or_timeout budget w).2.2 = 1) ∧
      (∀ e, (read_key_or_timeout budget w).1 = .err e →
        (read_key_or_timeout budget w).2.1.mode =
          applyFlags [.NotCanonical, .NotEcho] w.mode ∧
        resetCount (read_key_or_timeout budget w).2.2 = 0)) ∧
    (∀ (budget : Nat) (w : World),
      (∀ v, (read_string_or_timeout budget w).1 = .ok v →
        (read_string_or_timeout budget w).2.1.mode = w.mode ∧
        resetCount (read_string_or_timeout budget w).2.2 = 1) ∧
      (∀ e, (read_string_or_timeout budget w).1 = .err e →
        resetCount (read_string_or_timeout budget w).2.2 = 0)) ∧
    (∀ (budget : Nat) (w : World),
      (∀ v, (read_string_hidden_or_timeout budget w).1 = .ok v →
        (read_string_hidden_or_timeout budget w).2.1.mode = w.mode ∧
        resetCount (read_string_hidden_or_timeout budget w).2.2 = 1) ∧
      (∀ e, (read_string_hidden_or_timeout budget w).1 = .err e →
        resetCount (read_string_hidden_or_timeout budget w).2.2 = 0)) ∧
    (∀ (m : Mode) (w : World),
      (∀ v, (read_key_future_step ⟨some (.ok m)⟩ w).1 = .ready (.ok v) →
        (read_key_future_step ⟨some (.ok m)⟩ w).2.2.1.mode = m ∧
        resetCount (read_key_future_step ⟨some (.ok m)⟩ w).2.2.2 = 1) ∧
      (∀ e, (read_key_future_step ⟨some (.ok m)⟩ w).1 = .ready (.err e) →
        (read_key_future_step ⟨some (.ok m)⟩ w).2.2.1.mode = w.mode ∧
        resetCount (read_key_future_step ⟨some (.ok m)⟩ w).2.2.2 = 0) ∧
      ((read_key_future_step ⟨some (.ok m)⟩ w).1 = .pending →
        (read_key_future_step ⟨some (.ok m)⟩ w).2.1 = (⟨some (.ok m)⟩ : FutState) ∧
        (read_key_future_step ⟨some (.ok m)⟩ w).2.2.1.mode = w.mode ∧
        resetCount (read_key_future_step ⟨some (.ok m)⟩ w).2.2.2 = 0)) ∧
    (∀ (m : Mode) (w : World),
      (∀ v, (read_string_future_step ⟨some (.ok m)⟩ w).1 = .ready (.ok v) →
        (read_string_future_step ⟨some (.ok m)⟩ w).2.2.1.mode = m ∧
        resetCount (read_string_future_step ⟨some (.ok m)⟩ w).2.2.2 = 1) ∧
      ((read_string_future_step ⟨some (.ok m)⟩ w).1 = .pending →
        (read_string_future_step ⟨some (.ok m)⟩ w).2.2.1.mode = w.mode ∧
        resetCount (read_string_future_step ⟨some (.ok m)⟩ w).2.2.2 = 0)) := by
  refine ⟨?_, ?_, ?_, ?_, ?_, ?_, ?_, ?_⟩
  · intro ready1 w
    exact blockingRead_restore processKey processKey_resetCount
      false [.NotCanonical, .NotEcho] ready1 w
  · intro ready1 w
    obtain ⟨h1, h2, _⟩ := blockingRead_restore readString readString_resetCount
      true [.Canonical, .Echo] ready1 w
    exact ⟨h1, fun e he => (h2 e he).2⟩
  · intro ready1 w
    obtain ⟨h1, h2, _⟩ := blockingRead_restore readString readString_resetCount
      true [.Canonical, .NotEcho] ready1 w
    exact ⟨h1, fun e he => (h2 e he).2⟩
  · intro budget w
    exact read_or_timeout_restore processKeyStatic
      (fun t s => processKey_resetCount t (pollReady s) s)
      false [.NotCanonical, .NotEcho] budget w
  · intro budget w
    obtain ⟨h1, h2⟩ := read_or_timeout_restore readStringStatic
      (fun t s => readString_resetCount t (pollReady s) s)
      true [.Canonical, .Echo] budget w
    exact ⟨h1, fun e he => (h2 e he).2⟩
  · intro budget w
    obtain ⟨h1, h2⟩ := read_or_timeout_restore readStringStatic
      (fun t s => readString_resetCount t (pollReady s) s)
      true [.Canonical, .NotEcho] budget w
    exact ⟨h1, fun e he => (h2 e he).2⟩
  · intro m w
    exact future_poll_restore (fun s => processKey 0 (pollReady s) s)
      (fun s => processKey_resetCount 0 (pollReady s) s) m w
  · intro m w
    obtain ⟨h1, _, h3⟩ := future_poll_restore (fun s => readString 0 (pollReady s) s)
      (fun s => readString_resetCount 0 (pollReady s) s) m w
    exact ⟨h1, fun hp => ⟨(h3 hp).2.1, (h3 hp).2.2⟩⟩

/-- C1 witness: a blocking `read_key` that succeeds on the byte 0x61 restores
the original mode and records exactly one restoration. -/
theorem c1_mode_restore_amended_witness :
    (read_key_blocking true ⟨⟨true, true⟩, ⟨[97], false⟩⟩).2.1.mode = ⟨true, true⟩ ∧
    resetCount (read_key_blocking true ⟨⟨true, true⟩, ⟨[97], false⟩⟩).2.2 = 1 :=
  (c1_mode_restore_amended.1 true ⟨⟨true, true⟩, ⟨[97], false⟩⟩).1
    (Key.Char 97) (by decide)

end InKeys
